import Mathlib

/-!
# Verification of the 3D rocket-engine visualization core

A shallow embedding, in Lean 4, of the JavaScript visualization core of the
3DRocketEngine_Simulator repository, together with proofs and refutations of
the frozen claims about it.

Conventions used throughout:

* JavaScript numbers are modelled as rationals (`ℚ`) where the code only uses
  field operations and comparisons, and as reals (`ℝ`) where the code uses
  `Math.cos`, `Math.sin`, `Math.sqrt`, `Math.log`, `Math.asin` or `Math.PI`.
* A thrown `TypeError` (an out-of-bounds array element whose property is then
  read) is modelled by an `Option` result being `none`.
* For the one place where IEEE-754 special values matter (the unguarded
  division in `thermalColor`, claim about degenerate color ramps), JavaScript
  numbers are modelled exactly by `JsVal` (finite rational, `±Infinity`, or
  `NaN`) with JavaScript's propagation rules for the operators the function
  uses.
* Mutable module-level state (overlay material references, particle pools) is
  modelled by explicit state records and state-passing functions.
-/

/-! ## Shared utilities (frontend/js/utils.js) -/

/-- `clamp(v, lo, hi) = Math.max(lo, Math.min(hi, v))` from utils.js. -/
def clamp (v lo hi : ℚ) : ℚ := max lo (min hi v)

/-- `lerp(a, b, t) = a + (b - a) * t` from utils.js. -/
def lerp (a b t : ℚ) : ℚ := a + (b - a) * t

/-- `mapRange(v, inLo, inHi, outLo, outHi)` from utils.js:
linear remap with the interpolation parameter clamped to `[0,1]`. -/
def mapRange (v inLo inHi outLo outHi : ℚ) : ℚ :=
  lerp outLo outHi (clamp ((v - inLo) / (inHi - inLo)) 0 1)

/-! ## Revolved-surface builder (`createLatheGeometry`, engine_mesh.js)

`createLatheGeometry(profile2d, segments)` walks the `N` profile stations; at
station `i` it computes a forward difference `(dx, dr)` of the
`(axialPosition, radius)` polyline (backward difference at the last station),
normalises it (`Math.sqrt(dx*dx+dr*dr) || 1` guards a zero-length tangent),
and emits `segments+1` vertices — positions `(x, r cos θ, r sin θ)` and
normals `(-dr/len, (dx/len) cos θ, (dx/len) sin θ)` — then two triangles per
station-pair/segment-pair quad with winding `(a,c,b),(b,c,d)`.

For a single-station profile (`N = 1`) the backward difference at station 0
reads `profile2d[-1][0]`: `profile2d[-1]` is `undefined` in JavaScript and the
element access throws a `TypeError`.  This is the one partial step of the
builder, so the per-station tangent is an `Option` and the whole builder
returns `none` exactly when some station's tangent access is out of bounds. -/

/-- The `(dx, dr)` tangent of the profile polyline at station `i`:
forward difference while `i < profile2d.length - 1`, backward difference at
the last station.  `none` models the `TypeError` thrown when the backward
difference at station 0 of a one-station profile reads `profile2d[-1][0]`. -/
def stationDelta (profile2d : List (ℝ × ℝ)) (i : ℕ) : Option (ℝ × ℝ) :=
  match profile2d.get? i with
  | none => none
  | some p =>
    if i + 1 < profile2d.length then
      (profile2d.get? (i + 1)).map fun q => (q.1 - p.1, q.2 - p.2)
    else if i = 0 then
      none
    else
      (profile2d.get? (i - 1)).map fun q => (p.1 - q.1, p.2 - q.2)

open scoped Classical in
/-- The per-station shading normal `(nx, nr) = (-dr/len, dx/len)` in the
axial–radial plane, where `len = Math.sqrt(dx*dx + dr*dr) || 1`.
Total helper: only evaluated at stations whose tangent exists. -/
noncomputable def stationNormal (profile2d : List (ℝ × ℝ)) (i : ℕ) : ℝ × ℝ :=
  let d := (stationDelta profile2d i).getD (0, 0)
  let s := Real.sqrt (d.1 * d.1 + d.2 * d.2)
  let len := if s = 0 then 1 else s
  (-d.2 / len, d.1 / len)

/-- The circumferential angle of vertex column `j`:
`theta = (j / segments) * 2π`. -/
noncomputable def latheTheta (segments j : ℕ) : ℝ :=
  ((j : ℝ) / (segments : ℝ)) * (2 * Real.pi)

/-- The `segments+1` revolved (position, normal) pairs emitted for station
`i`.  Positions are `(x, r cos θ, r sin θ)`; normals revolve the station
normal: `(nx, nr cos θ, nr sin θ)`. -/
noncomputable def latheRow (profile2d : List (ℝ × ℝ)) (segments i : ℕ) :
    List ((ℝ × ℝ × ℝ) × (ℝ × ℝ × ℝ)) :=
  let xr := profile2d.getD i (0, 0)
  let nrm := stationNormal profile2d i
  (List.range (segments + 1)).map fun j =>
    let θ := latheTheta segments j
    ((xr.1, xr.2 * Real.cos θ, xr.2 * Real.sin θ),
     (nrm.1, nrm.2 * Real.cos θ, nrm.2 * Real.sin θ))

/-- The index buffer: for each of the `nAxial-1` station pairs and each of the
`segments` circumferential cells, the two triangles `(a,c,b)` and `(b,c,d)`
with `a = i*(segments+1)+j`, `b = a+1`, `c = (i+1)*(segments+1)+j`,
`d = c+1`.  Each list entry is one indexed triangle. -/
def latheIndices (nAxial segments : ℕ) : List (ℕ × ℕ × ℕ) :=
  (List.range (nAxial - 1)).flatMap fun i =>
    (List.range segments).flatMap fun j =>
      let a := i * (segments + 1) + j
      let b := a + 1
      let c := (i + 1) * (segments + 1) + j
      let d := c + 1
      [(a, c, b), (b, c, d)]

/-- A revolved `BufferGeometry`: flat vertex positions and normals (one entry
per vertex), and the triangle index list.  (The `uv` attribute carries no
geometric information and is not modelled.) -/
structure LatheGeometry where
  positions : List (ℝ × ℝ × ℝ)
  normals : List (ℝ × ℝ × ℝ)
  indices : List (ℕ × ℕ × ℕ)

open scoped Classical in
/-- `createLatheGeometry(profile2d, segments)` from engine_mesh.js.
Returns `none` exactly when some station's tangent access throws (the
single-station profile); otherwise the flat vertex rows of all stations and
the quad index buffer. -/
noncomputable def createLatheGeometry (profile2d : List (ℝ × ℝ))
    (segments : ℕ) : Option LatheGeometry :=
  if ∃ i < profile2d.length, stationDelta profile2d i = none then
    none
  else
    some
      { positions :=
          (List.range profile2d.length).flatMap fun i =>
            (latheRow profile2d segments i).map Prod.fst
        normals :=
          (List.range profile2d.length).flatMap fun i =>
            (latheRow profile2d segments i).map Prod.snd
        indices := latheIndices profile2d.length segments }

/-! ## End caps, injector face and full mesh build (engine_mesh.js) -/

/-- `createEndCapGeometry(x, rInner, rOuter, segments, faceNegativeX)`:
an annulus of `2*(segments+1)` vertices and `2*segments` triangles bridging
the inner and outer wall radii at one axial station. -/
noncomputable def createEndCapGeometry (x rInner rOuter : ℝ) (segments : ℕ)
    (faceNegativeX : Bool) : LatheGeometry :=
  let nx : ℝ := if faceNegativeX then -1 else 1
  { positions :=
      (List.range (segments + 1)).flatMap fun j =>
        let θ := latheTheta segments j
        [(x, rInner * Real.cos θ, rInner * Real.sin θ),
         (x, rOuter * Real.cos θ, rOuter * Real.sin θ)]
    normals :=
      (List.range (segments + 1)).flatMap fun _ => [(nx, 0, 0), (nx, 0, 0)]
    indices :=
      (List.range segments).flatMap fun j =>
        let i0 := j * 2
        let o0 := j * 2 + 1
        let i1 := (j + 1) * 2
        let o1 := (j + 1) * 2 + 1
        if faceNegativeX then [(i0, o0, i1), (i1, o0, o1)]
        else [(i0, i1, o0), (o0, i1, o1)] }

/-- `createInjectorFaceGeometry(x, rInner, segments)`: a triangle fan disc at
the chamber inlet (centre vertex plus `segments+1` rim vertices). -/
noncomputable def createInjectorFaceGeometry (x rInner : ℝ) (segments : ℕ) :
    LatheGeometry :=
  { positions :=
      (x, 0, 0) ::
        ((List.range (segments + 1)).map fun j =>
          let θ := latheTheta segments j
          (x, rInner * Real.cos θ, rInner * Real.sin θ))
    normals := (List.range (segments + 2)).map fun _ => (-1, 0, 0)
    indices := (List.range segments).map fun j => (0, j + 2, j + 1) }

/-- The surfaces assembled by `buildEngineMesh` that carry geometry
(cooling-indicator line overlays and the orifice branch are omitted here; the
claims about `buildEngineMesh` concern the wall surfaces and caps). -/
structure EngineMeshResult where
  outerGeo : LatheGeometry
  innerGeo : LatheGeometry
  chamberCap : LatheGeometry
  nozzleCap : LatheGeometry
  injectorFace : LatheGeometry

/-- `buildEngineMesh(meshData, …)` from engine_mesh.js, restricted to its
geometry construction.  In source order it builds the outer wall lathe, the
inner wall lathe, then the chamber end cap (reading `profile2d[0][0]`,
`profile2d[0][1]`, `outerProfile2d[0][1]` — a `TypeError` when the profile is
empty), the nozzle end cap at the last station, and the injector face.
`none` models a thrown `TypeError` at any of these steps. -/
noncomputable def buildEngineMesh (profile2d outerProfile2d : List (ℝ × ℝ))
    (segments : ℕ) : Option EngineMeshResult := do
  let outerGeo ← createLatheGeometry outerProfile2d segments
  let innerGeo ← createLatheGeometry profile2d segments
  let p0 ← profile2d.get? 0
  let o0 ← outerProfile2d.get? 0
  let pLast ← profile2d.get? (profile2d.length - 1)
  let oLast ← outerProfile2d.get? (outerProfile2d.length - 1)
  pure
    { outerGeo := outerGeo
      innerGeo := innerGeo
      chamberCap := createEndCapGeometry p0.1 p0.2 o0.2 segments true
      nozzleCap := createEndCapGeometry pLast.1 pLast.2 oLast.2 segments false
      injectorFace := createInjectorFaceGeometry p0.1 p0.2 segments }

/-! ## Injector-face polar grid resolution (`createInjectorFaceWithOrifices`)

Only the adaptive resolution choice is relevant to the grid claim:

    let minOrificeRadius = faceRadius;
    for (const o of orifices) if (o.radius < minOrificeRadius) minOrificeRadius = o.radius;
    const cellTarget = minOrificeRadius;
    const nRadial  = Math.min(120, Math.max(40, Math.ceil(faceRadius / cellTarget)));
    const nAngular = Math.min(512, Math.max(segments, Math.ceil(2 * Math.PI * faceRadius / cellTarget)));

The radial rings are `radii[i] = (i / nRadial) * faceRadius`, so the radial
cell size is `faceRadius / nRadial`; the angular cell size (arc length at the
face rim) is `2π * faceRadius / nAngular`. -/

/-- An injector orifice: lateral offset `(y, z)`, radius, fluid-type tag. -/
structure Orifice where
  y : ℚ
  z : ℚ
  radius : ℚ
  isFuel : Bool

/-- The running minimum of the orifice radii, started at `faceRadius`. -/
def minOrificeRadius (orifices : List Orifice) (faceRadius : ℚ) : ℚ :=
  orifices.foldl (fun m o => if o.radius < m then o.radius else m) faceRadius

/-- `nRadial = Math.min(120, Math.max(40, Math.ceil(faceRadius/cellTarget)))`
with `cellTarget = minOrificeRadius`. -/
def injectorNRadial (faceRadius cellTarget : ℚ) : ℤ :=
  min 120 (max 40 ⌈faceRadius / cellTarget⌉)

/-- `nAngular = Math.min(512, Math.max(segments, Math.ceil(2π*faceRadius/cellTarget)))`. -/
noncomputable def injectorNAngular (faceRadius cellTarget : ℚ)
    (segments : ℤ) : ℤ :=
  min 512 (max segments ⌈2 * Real.pi * (faceRadius : ℝ) / (cellTarget : ℝ)⌉)

/-- The radial cell size of the polar grid: `faceRadius / nRadial`
(consecutive rings are `radii[i+1] - radii[i] = faceRadius / nRadial` apart). -/
def injectorRadialCellSize (faceRadius cellTarget : ℚ) : ℚ :=
  faceRadius / (injectorNRadial faceRadius cellTarget : ℚ)

/-- The angular cell size of the polar grid, measured as arc length at the
face rim: `2π * faceRadius / nAngular`. -/
noncomputable def injectorAngularCellSize (faceRadius cellTarget : ℚ)
    (segments : ℤ) : ℝ :=
  2 * Real.pi * (faceRadius : ℝ) /
    (injectorNAngular faceRadius cellTarget segments : ℝ)

/-! ## IEEE-754 special values for the thermal ramp (color_scales.js)

`thermalColor(value, min, max)` computes `t = (value - min) / (max - min)`
with no guard on `max - min`.  Refuting or confirming the degenerate-array
claim requires JavaScript's actual number semantics at that division, so the
operations `thermalColor` performs are modelled on `JsVal`: a finite rational,
`+Infinity`, `-Infinity`, or `NaN`, with JavaScript's propagation rules
(`0/0 = NaN`, `x/0 = ±Infinity` for `x ≠ 0`, `NaN` propagates through
arithmetic and `Math.min`/`Math.max`, and every `<` comparison involving
`NaN` is false). -/

/-- A JavaScript number: finite (rational) value, infinities, or NaN. -/
inductive JsVal
  | num (q : ℚ)
  | posInf
  | negInf
  | nan
deriving DecidableEq, Repr

namespace JsVal

/-- JavaScript subtraction. -/
def sub : JsVal → JsVal → JsVal
  | num a, num b => num (a - b)
  | num _, posInf => negInf
  | num _, negInf => posInf
  | posInf, num _ => posInf
  | negInf, num _ => negInf
  | posInf, negInf => posInf
  | negInf, posInf => negInf
  | posInf, posInf => nan
  | negInf, negInf => nan
  | nan, _ => nan
  | _, nan => nan

/-- JavaScript division (only the cases `thermalColor` can reach need care:
`0/0 = NaN`, `x/0 = ±Infinity` by the sign of `x`). -/
def div : JsVal → JsVal → JsVal
  | num a, num b =>
      if b = 0 then
        if a = 0 then nan else if 0 < a then posInf else negInf
      else num (a / b)
  | num _, posInf => num 0
  | num _, negInf => num 0
  | posInf, num b => if 0 ≤ b then posInf else negInf
  | negInf, num b => if 0 ≤ b then negInf else posInf
  | posInf, posInf => nan
  | posInf, negInf => nan
  | negInf, posInf => nan
  | negInf, negInf => nan
  | nan, _ => nan
  | _, nan => nan

/-- JavaScript `<` — false whenever either side is `NaN`. -/
def lt : JsVal → JsVal → Bool
  | num a, num b => a < b
  | num _, posInf => true
  | num _, negInf => false
  | posInf, num _ => false
  | negInf, num _ => true
  | posInf, negInf => false
  | negInf, posInf => true
  | posInf, posInf => false
  | negInf, negInf => false
  | nan, _ => false
  | _, nan => false

/-- JavaScript `Math.min` (two arguments) — `NaN` if either side is `NaN`. -/
def jmin : JsVal → JsVal → JsVal
  | nan, _ => nan
  | _, nan => nan
  | a, b => if lt a b then a else b

/-- JavaScript `Math.max` (two arguments) — `NaN` if either side is `NaN`. -/
def jmax : JsVal → JsVal → JsVal
  | nan, _ => nan
  | _, nan => nan
  | a, b => if lt a b then b else a

end JsVal

/-- `thermalColor(value, min, max)` from color_scales.js, transcribed on
JavaScript number semantics:

    let t = (value - min) / (max - min);
    t = Math.max(0, Math.min(1, t));
    if (t < 0.25)      { s = t/0.25;          return [0, s, 1]; }
    else if (t < 0.5)  { s = (t-0.25)/0.25;   return [0, 1, 1-s]; }
    else if (t < 0.75) { s = (t-0.5)/0.25;    return [s, 1, 0]; }
    else               { s = (t-0.75)/0.25;   return [1, 1-s, 0]; }
-/
def thermalColor (value min max : JsVal) : JsVal × JsVal × JsVal :=
  let t0 := JsVal.div (JsVal.sub value min) (JsVal.sub max min)
  let t := JsVal.jmax (JsVal.num 0) (JsVal.jmin (JsVal.num 1) t0)
  if JsVal.lt t (JsVal.num (1/4)) then
    let s := JsVal.div t (JsVal.num (1/4))
    (JsVal.num 0, s, JsVal.num 1)
  else if JsVal.lt t (JsVal.num (1/2)) then
    let s := JsVal.div (JsVal.sub t (JsVal.num (1/4))) (JsVal.num (1/4))
    (JsVal.num 0, JsVal.num 1, JsVal.sub (JsVal.num 1) s)
  else if JsVal.lt t (JsVal.num (3/4)) then
    let s := JsVal.div (JsVal.sub t (JsVal.num (1/2))) (JsVal.num (1/4))
    (s, JsVal.num 1, JsVal.num 0)
  else
    let s := JsVal.div (JsVal.sub t (JsVal.num (3/4))) (JsVal.num (1/4))
    (JsVal.num 1, JsVal.sub (JsVal.num 1) s, JsVal.num 0)

/-- `coolantColor(temp, tMin, tMax)` from cooling_viz.js — the sibling ramp
that DOES guard its denominator: `(temp - tMin) / Math.max(tMax - tMin, 1)`,
clamped to `[0,1]`.  All operations stay finite, so it is modelled on `ℚ`. -/
def coolantColor (temp tMin tMax : ℚ) : ℚ × ℚ × ℚ :=
  let t := clamp ((temp - tMin) / max (tMax - tMin) 1) 0 1
  if t < 33/100 then
    let s := t / (33/100)
    (0, mapRange s 0 1 (3/10) (9/10), 1)
  else if t < 66/100 then
    let s := (t - 33/100) / (33/100)
    (s, 9/10, 1 - s)
  else
    let s := (t - 66/100) / (34/100)
    (1, mapRange s 0 1 (9/10) (15/100), 0)

/-! ## Flow overlay coloring (flow_viz.js) -/

/-- `machColor(M)` from flow_viz.js: blue → white for `M ≤ 1`,
white → red for `M > 1`. -/
def machColor (M : ℚ) : ℚ × ℚ × ℚ :=
  if M ≤ 1 then
    let t := clamp M 0 1
    (mapRange t 0 1 (2/10) 1, mapRange t 0 1 (4/10) 1, mapRange t 0 1 1 1)
  else
    let t := clamp ((M - 1) / 3) 0 1
    (1, mapRange t 0 1 1 (2/10), mapRange t 0 1 1 (1/10))

/-- The per-vertex color buffer written by `applyFlowVisualization`: for each
station `i` of the mesh, `M = i < machArray.length ? machArray[i] : 1.0`, and
`machColor(M)` is written to all `nCirc+1` circumferential vertices of the
station (flat layout `idx = i*(nCirc+1)+j`). -/
def applyFlowVisualizationColors (machArray : List ℚ)
    (nStations nCirc : ℕ) : List (ℚ × ℚ × ℚ) :=
  (List.range nStations).flatMap fun i =>
    let M := if i < machArray.length then machArray.getD i 0 else 1
    (List.range (nCirc + 1)).map fun _ => machColor M

/-! ## Overlay controller (heat_map.js, stress_overlay.js, flow_viz.js,
cooling_viz.js, wired together by `applyVisualization` in main.js)

Only material identity and activation flags decide the overlay claims, so the
state tracks: the outer mesh's current material (materials are identified by
allocation number, `nextId` supplying fresh ones), the lazily captured
`originalMaterial` references of heat_map.js and stress_overlay.js, their
lazily created vertex-color materials, flow_viz.js's `flowColorsApplied`
flag, and cooling_viz.js's `channelShaderActive` / `channelMaterial` /
`savedOuterMaterial`, plus the internal-flow particle visibility.  A live
outer mesh is assumed (every one of these functions early-returns when
`getOuterMesh()` is null). -/

/-- Module-level mutable state of the overlay subsystem. -/
structure VizState where
  nextId : ℕ
  meshMat : ℕ
  heatOrig : Option ℕ
  heatMat : Option ℕ
  stressOrig : Option ℕ
  stressMat : Option ℕ
  flowApplied : Bool
  channelActive : Bool
  channelMat : Option ℕ
  channelSaved : Option ℕ
  internalFlowVisible : Bool
deriving DecidableEq, Repr

/-- `clearHeatMap()`: if an original material was captured, restore it as the
mesh material (the captured reference itself is kept). -/
def clearHeatMap (s : VizState) : VizState :=
  match s.heatOrig with
  | none => s
  | some m => { s with meshMat := m }

/-- `applyHeatMap(stationTemps)`: capture `originalMaterial` on first apply,
lazily create the vertex-color heat material, and swap it in. -/
def applyHeatMap (s : VizState) : VizState :=
  let s1 := if s.heatOrig = none then { s with heatOrig := some s.meshMat } else s
  match s1.heatMat with
  | some m => { s1 with meshMat := m }
  | none =>
      { s1 with
        heatMat := some s1.nextId
        meshMat := s1.nextId
        nextId := s1.nextId + 1 }

/-- `clearStressOverlay()`: same discipline as `clearHeatMap`. -/
def clearStressOverlay (s : VizState) : VizState :=
  match s.stressOrig with
  | none => s
  | some m => { s with meshMat := m }

/-- `applyStressOverlay(stationStress, yieldStrength)`: same discipline as
`applyHeatMap`, with its own module-level references. -/
def applyStressOverlay (s : VizState) : VizState :=
  let s1 :=
    if s.stressOrig = none then { s with stressOrig := some s.meshMat } else s
  match s1.stressMat with
  | some m => { s1 with meshMat := m }
  | none =>
      { s1 with
        stressMat := some s1.nextId
        meshMat := s1.nextId
        nextId := s1.nextId + 1 }

/-- `applyFlowVisualization(machArray, coolantData)` (state effect): enables
vertex colors on the inner mesh and sets `flowColorsApplied` — the outer wall
material is untouched. -/
def applyFlowViz (s : VizState) : VizState :=
  { s with flowApplied := true }

/-- `clearFlowViz()`: removes the coolant arrows and, when colors were
applied, resets the inner-mesh vertex colors and the flag. -/
def clearFlowViz (s : VizState) : VizState :=
  if s.flowApplied then { s with flowApplied := false } else s

/-- `applyChannelShader(meshData, cooling, coolantData)` from cooling_viz.js:
on first call, or when the mesh material is no longer the channel shader
material (mesh rebuilt or another overlay swapped it), dispose the old shader
material, save the current mesh material, create a fresh `ShaderMaterial` and
swap it in; otherwise just update uniforms.  Always ends with
`channelShaderActive = true`. -/
def applyChannelShader (s : VizState) : VizState :=
  if s.channelMat = some s.meshMat then
    -- the mesh still uses the shader material: just update its uniforms
    { s with channelActive := true }
  else
    -- `!channelMaterial || mesh.material !== channelMaterial`: dispose the
    -- old shader material, save the current one, create a fresh shader
    { s with
      channelSaved := some s.meshMat
      channelMat := some s.nextId
      meshMat := s.nextId
      nextId := s.nextId + 1
      channelActive := true }

/-- `clearCoolingViz()`: clears cutaway/cross-section geometry (not part of
this state), then, if the channel shader is active, restores the saved outer
material when the mesh still uses the shader material, disposes the shader
material and texture, and resets all three references. -/
def clearCoolingViz (s : VizState) : VizState :=
  if s.channelActive then
    let s1 :=
      match s.channelSaved with
      | some m => if s.channelMat = some s.meshMat then { s with meshMat := m } else s
      | none => s
    { s1 with channelMat := none, channelSaved := none, channelActive := false }
  else s

/-- `showCoolingViz(meshData, cooling, coolantData, cutaway)`: clears the
cutaway/cross-section geometry, then either tears the whole overlay down
(cooling disabled) or applies the channel shader and rebuilds the cutaway. -/
def showCoolingViz (s : VizState) (coolingEnabled : Bool) : VizState :=
  if coolingEnabled then applyChannelShader s else clearCoolingViz s

/-- The visualization mode tokens of main.js
(`'normal' | 'heatmap' | 'stress' | 'flow' | 'cooling'`). -/
inductive VizMode
  | normal
  | heatmap
  | stress
  | flow
  | cooling
deriving DecidableEq, Repr

/-- The data availability and UI flags `applyVisualization` branches on. -/
structure TickData where
  hasSimData : Bool
  hasWallTemp : Bool
  hasStress : Bool
  hasMach : Bool
  hasMeshData : Bool
  coolingEnabled : Bool
  simRunning : Bool
deriving DecidableEq, Repr

/-- The overlay clear/apply calls `applyVisualization` can make, in the order
it makes them (legend drawing and slider bookkeeping are not overlay
actions). -/
inductive VizAction
  | clearHeat
  | clearStress
  | clearFlow
  | clearCooling
  | applyHeat
  | applyStress
  | applyFlow
  | applyCooling
deriving DecidableEq, Repr

/-- `applyVisualization()` from main.js, with the clear/apply call trace:

    if (!lastSimData) return;
    clearHeatMap(); clearStressOverlay(); clearFlowViz();
    if (vizMode !== 'cooling') clearCoolingViz();
    if (vizMode !== 'flow') setInternalFlowVisible(false);
    if      (vizMode === 'heatmap' && wall_temp) applyHeatMap(...);
    else if (vizMode === 'stress'  && stress)    applyStressOverlay(...);
    else if (vizMode === 'flow'    && mach)    { applyFlowVisualization(...);
                                                 setInternalFlowVisible(simRunning); }
    else if (vizMode === 'cooling' && meshData)  showCoolingViz(...);
-/
def applyVisualizationT (mode : VizMode) (d : TickData) (s : VizState) :
    VizState × List VizAction :=
  if d.hasSimData = false then (s, [])
  else
    let s1 := clearHeatMap s
    let s2 := clearStressOverlay s1
    let s3 := clearFlowViz s2
    let s4 := if mode ≠ VizMode.cooling then clearCoolingViz s3 else s3
    let s5 :=
      if mode ≠ VizMode.flow then { s4 with internalFlowVisible := false } else s4
    let preActions :=
      [VizAction.clearHeat, VizAction.clearStress, VizAction.clearFlow] ++
        (if mode ≠ VizMode.cooling then [VizAction.clearCooling] else [])
    match mode with
    | VizMode.heatmap =>
        if d.hasWallTemp then (applyHeatMap s5, preActions ++ [VizAction.applyHeat])
        else (s5, preActions)
    | VizMode.stress =>
        if d.hasStress then
          (applyStressOverlay s5, preActions ++ [VizAction.applyStress])
        else (s5, preActions)
    | VizMode.flow =>
        if d.hasMach then
          ({ applyFlowViz s5 with internalFlowVisible := d.simRunning },
            preActions ++ [VizAction.applyFlow])
        else (s5, preActions)
    | VizMode.cooling =>
        if d.hasMeshData then
          (showCoolingViz s5 d.coolingEnabled,
            preActions ++
              (if d.coolingEnabled then [VizAction.applyCooling]
               else [VizAction.clearCooling]))
        else (s5, preActions)
    | VizMode.normal => (s5, preActions)

/-- The state effect of one `applyVisualization()` call. -/
def applyVisualization (mode : VizMode) (d : TickData) (s : VizState) :
    VizState :=
  (applyVisualizationT mode d s).1

/-- The Thermal heat-map overlay is active: the outer mesh's material is the
heat-map vertex-color material. -/
def heatActive (s : VizState) : Prop := s.heatMat = some s.meshMat

/-- The Stress overlay is active: the outer mesh's material is the stress
vertex-color material. -/
def stressActive (s : VizState) : Prop := s.stressMat = some s.meshMat

/-- The Flow overlay is active: inner-mesh vertex colors are applied. -/
def flowActive (s : VizState) : Prop := s.flowApplied = true

/-- The Cooling overlay is active: the channel shader is live. -/
def coolingActive (s : VizState) : Prop := s.channelActive = true

/-- At most one of the four overlays is active. -/
def atMostOneOverlay (s : VizState) : Prop :=
  (heatActive s → ¬stressActive s ∧ ¬flowActive s ∧ ¬coolingActive s) ∧
  (stressActive s → ¬heatActive s ∧ ¬flowActive s ∧ ¬coolingActive s) ∧
  (flowActive s → ¬heatActive s ∧ ¬stressActive s ∧ ¬coolingActive s) ∧
  (coolingActive s → ¬heatActive s ∧ ¬stressActive s ∧ ¬flowActive s)

instance (s : VizState) : Decidable (heatActive s) := by
  unfold heatActive; infer_instance

instance (s : VizState) : Decidable (stressActive s) := by
  unfold stressActive; infer_instance

instance (s : VizState) : Decidable (flowActive s) := by
  unfold flowActive; infer_instance

instance (s : VizState) : Decidable (coolingActive s) := by
  unfold coolingActive; infer_instance

instance (s : VizState) : Decidable (atMostOneOverlay s) := by
  unfold atMostOneOverlay; infer_instance

/-- The clear actions among the overlay actions. -/
def VizAction.isClearAct : VizAction → Bool
  | VizAction.clearHeat => true
  | VizAction.clearStress => true
  | VizAction.clearFlow => true
  | VizAction.clearCooling => true
  | _ => false

/-- The apply actions among the overlay actions. -/
def VizAction.isApplyAct : VizAction → Bool
  | VizAction.applyHeat => true
  | VizAction.applyStress => true
  | VizAction.applyFlow => true
  | VizAction.applyCooling => true
  | _ => false

/-- `belowOpt o n`: the stored material reference, if any, was allocated
before `n`. -/
def belowOpt (o : Option ℕ) (n : ℕ) : Prop :=
  match o with
  | none => True
  | some m => m < n

instance (o : Option ℕ) (n : ℕ) : Decidable (belowOpt o n) := by
  unfold belowOpt
  cases o <;> infer_instance

/-- `diffOpt a b`: when both references exist they are different materials. -/
def diffOpt (a b : Option ℕ) : Prop :=
  match a, b with
  | some x, some y => x ≠ y
  | _, _ => True

instance (a b : Option ℕ) : Decidable (diffOpt a b) := by
  unfold diffOpt
  cases a <;> cases b <;> infer_instance

/-- The health invariant of the overlay state, true of a fresh page and
preserved by every `applyVisualization` call:
all stored references were allocated before `nextId`; the three overlay
materials are pairwise distinct; the captured original/saved materials are
never one of the overlay materials; an overlay material can only be the live
mesh material if its original was captured (resp. the channel save exists);
and an inactive cooling overlay holds no references. -/
def VizInv (s : VizState) : Prop :=
  (s.meshMat < s.nextId ∧ belowOpt s.heatOrig s.nextId ∧
    belowOpt s.heatMat s.nextId ∧ belowOpt s.stressOrig s.nextId ∧
    belowOpt s.stressMat s.nextId ∧ belowOpt s.channelMat s.nextId ∧
    belowOpt s.channelSaved s.nextId) ∧
  (diffOpt s.heatMat s.stressMat ∧ diffOpt s.heatMat s.channelMat ∧
    diffOpt s.stressMat s.channelMat) ∧
  (diffOpt s.heatOrig s.heatMat ∧ diffOpt s.heatOrig s.stressMat ∧
    diffOpt s.heatOrig s.channelMat ∧ diffOpt s.stressOrig s.heatMat ∧
    diffOpt s.stressOrig s.stressMat ∧ diffOpt s.stressOrig s.channelMat ∧
    diffOpt s.channelSaved s.heatMat ∧ diffOpt s.channelSaved s.stressMat ∧
    diffOpt s.channelSaved s.channelMat) ∧
  ((s.heatMat = some s.meshMat → s.heatOrig.isSome = true) ∧
    (s.stressMat = some s.meshMat → s.stressOrig.isSome = true) ∧
    (s.channelMat = some s.meshMat → s.channelSaved.isSome = true)) ∧
  (s.channelActive = false → s.channelMat = none ∧ s.channelSaved = none)

instance (s : VizState) : Decidable (VizInv s) := by
  unfold VizInv
  infer_instance

/-- The overlay state of a freshly loaded page with a first mesh whose outer
wall material is allocation 0. -/
def initVizState : VizState :=
  { nextId := 1
    meshMat := 0
    heatOrig := none
    heatMat := none
    stressOrig := none
    stressMat := none
    flowApplied := false
    channelActive := false
    channelMat := none
    channelSaved := none
    internalFlowVisible := false }

/-! ## Exhaust-plume particles (flame_particles.js)

`updateFlame(exitX, exitRadius, thrustScale)` advances each of the 4000
particles:

    const speed = 0.006 + thrustScale * 0.008;
    lifetimes[i] += speed + Math.random() * 0.002;
    if (lifetimes[i] > 1.0) resetParticle(i, positions, lifetimes, radii);

and `resetParticle` puts the particle back on the nozzle axis at the exit and
draws a fresh random lifetime:

    positions[i*3] = _exitX; positions[i*3+1] = 0; positions[i*3+2] = 0;
    lifetimes[i] = Math.random();

The `Math.random()` draws are modelled as explicit parameters: `rand` is the
per-frame jitter draw and `resetRand` the rebirth draw, each in `[0,1)`.
(The reset also redraws the radial fraction `Math.pow(Math.random(), 0.6)`;
the radius attribute plays no part in the lifetime claims and is omitted.) -/

/-- One exhaust-plume particle: position and lifetime attributes. -/
structure PlumeParticle where
  pos : ℚ × ℚ × ℚ
  lifetime : ℚ
deriving DecidableEq, Repr

/-- `resetParticle`: reborn on the axis at the nozzle exit with a fresh
random lifetime. -/
def resetParticle (exitX resetRand : ℚ) : PlumeParticle :=
  { pos := (exitX, 0, 0), lifetime := resetRand }

/-- The per-particle body of the `updateFlame` loop. -/
def updateFlameParticle (exitX thrustScale rand resetRand : ℚ)
    (p : PlumeParticle) : PlumeParticle :=
  let speed := 6/1000 + thrustScale * (8/1000)
  let l1 := p.lifetime + (speed + rand * (2/1000))
  if 1 < l1 then resetParticle exitX resetRand
  else { p with lifetime := l1 }

/-- A sequence of `updateFlame` frames acting on one particle; each frame
supplies its `(exitX, thrustScale, rand, resetRand)` values. -/
def updateFlameSteps (frames : List (ℚ × ℚ × ℚ × ℚ)) (p : PlumeParticle) :
    PlumeParticle :=
  frames.foldl (fun q f => updateFlameParticle f.1 f.2.1 f.2.2.1 f.2.2.2 q) p

/-! ## Internal-flow particles (internal_flow.js)

`updateInternalFlow` (once per simulation tick) advances each of the 2000
particles by a rate proportional to the velocity looked up at the particle's
axial position:

    const t = lifetimes[i];
    const srcIdx = t * (nStations - 1);
    const lo = Math.floor(srcIdx);
    const hi = Math.min(lo + 1, nStations - 1);
    const frac = srcIdx - lo;
    const localVel = velocity_m_s[lo] * (1 - frac) + velocity_m_s[hi] * frac;
    const speedFactor = localVel / _maxVelocity;      // _maxVelocity = Math.max(...velocity_m_s, 1.0)
    lifetimes[i] += dt * (0.3 + 0.7 * speedFactor);   // dt = 0.012
    if (lifetimes[i] >= 1.0) lifetimes[i] -= 1.0;

`advanceInternalFlowParticles` (every render frame, between ticks) advances
by the fixed amount `0.012 * 0.6` with the same wrap.  Array indices are in
bounds whenever the lifetime is in `[0,1)` and the array is non-empty, which
is the regime of the lifetime claims; the embedding uses `getD` for the two
neighbour reads. -/

/-- `_maxVelocity = Math.max(...velocity_m_s, 1.0)`. -/
def maxVelocity (vel : List ℚ) : ℚ := vel.foldr max 1

/-- The velocity table lookup with linear interpolation at normalised axial
position `t` (the particle's lifetime). -/
def localVelocity (vel : List ℚ) (t : ℚ) : ℚ :=
  let srcIdx := t * ((vel.length : ℚ) - 1)
  let lo := ⌊srcIdx⌋
  let hi := min (lo + 1) ((vel.length : ℤ) - 1)
  let frac := srcIdx - lo
  vel.getD lo.toNat 0 * (1 - frac) + vel.getD hi.toNat 0 * frac

/-- The per-particle lifetime advancement of `updateInternalFlow`
(the once-per-tick, table-driven step). -/
def updateInternalFlowLifetime (vel : List ℚ) (l : ℚ) : ℚ :=
  let speedFactor := localVelocity vel l / maxVelocity vel
  let l1 := l + (12/1000) * (3/10 + (7/10) * speedFactor)
  if 1 ≤ l1 then l1 - 1 else l1

/-- The per-particle lifetime advancement of `advanceInternalFlowParticles`
(the per-frame step between ticks: fixed rate, same wrap). -/
def advanceInternalFlowLifetime (l : ℚ) : ℚ :=
  let l1 := l + (12/1000) * (6/10)
  if 1 ≤ l1 then l1 - 1 else l1

/-! ## Derived plume parameters (`_recomputeDerived`, flame_particles.js)

    const M = Math.max(_exhaustPhysics.exit_mach, 1.01);
    _pressureRatio = Pe / Math.max(Pa, 1.0);
    _plumeHalfAngle = Math.asin(1.0 / M);
    if (_pressureRatio > 1.0) {
        const expansion = 1.0 + 0.4 * Math.log(_pressureRatio);
        _plumeHalfAngle *= Math.min(expansion, 2.5);
    } else {
        _plumeHalfAngle *= Math.max(0.5 * _pressureRatio, 0.15);
    }
-/

/-- `_pressureRatio = Pe / Math.max(Pa, 1.0)`. -/
noncomputable def pressureRatioOf (pe pa : ℝ) : ℝ := pe / max pa 1

open scoped Classical in
/-- The derived plume half-angle as a function of the exit Mach number and
the pressure ratio, exactly as `_recomputeDerived` computes it: the Mach
angle `asin(1/max(exit_mach, 1.01))`, widened by
`min(1 + 0.4*log(ratio), 2.5)` when underexpanded (`ratio > 1`) and narrowed
by `max(0.5*ratio, 0.15)` otherwise. -/
noncomputable def plumeHalfAngle (exitMach pressureRatio : ℝ) : ℝ :=
  if 1 < pressureRatio then
    Real.arcsin (1 / max exitMach 1.01) *
      min (1 + 0.4 * Real.log pressureRatio) 2.5
  else
    Real.arcsin (1 / max exitMach 1.01) * max (0.5 * pressureRatio) 0.15

/-! # Theorems -/

/-! ## Helper lemmas -/

/-- Indexing a `flatMap` over `List.range` whose rows all have length `k`. -/
theorem flatMap_range_get_uniform {α : Type} (f : ℕ → List α) (k : ℕ)
    (hk : ∀ i, (f i).length = k) :
    ∀ N i j, i < N → j < k →
      ((List.range N).flatMap f).get? (i * k + j) = (f i).get? j := by
  intro N
  induction N generalizing f with
  | zero => intro i j hi _; omega
  | succ N ih =>
    intro i j hi hj
    rw [List.range_succ_eq_map, List.flatMap_cons, List.flatMap_map]
    cases i with
    | zero =>
      rw [List.get?_append]
      · simp
      · simpa [hk 0] using hj
    | succ i =>
      have hlen : k ≤ (i + 1) * k + j := by
        have : 1 * k ≤ (i + 1) * k := Nat.mul_le_mul_right k (by omega)
        omega
      rw [List.get?_append_right (by simpa [hk 0] using hlen)]
      have harith : (i + 1) * k + j - (f 0).length = i * k + j := by
        rw [hk 0]
        have : (i + 1) * k = i * k + k := by ring
        omega
      rw [harith]
      exact ih (fun m => f (m + 1)) (fun m => hk (m + 1)) i j (by omega) hj

/-! ## C10 — short Mach arrays default missing stations to Mach 1.0 -/

/-- C10: in the Flow overlay, for every station index `i` with
`machArray.length ≤ i < nStations` (a Mach array shorter than the mesh's
station count), `applyFlowVisualization` colors every circumferential vertex
`j ≤ nCirc` of station `i` (flat index `i*(nCirc+1)+j`) with
`machColor(1.0)`, which is pure white `(1,1,1)` — missing entries are treated
as exactly Mach 1. -/
theorem applyFlowVisualization_short_mach_defaults_white
    (machArray : List ℚ) (nStations nCirc i j : ℕ)
    (hshort : machArray.length ≤ i) (hi : i < nStations) (hj : j ≤ nCirc) :
    (applyFlowVisualizationColors machArray nStations nCirc).get?
        (i * (nCirc + 1) + j) = some (machColor 1) ∧
      machColor 1 = (1, 1, 1) := by
  constructor
  · have h := flatMap_range_get_uniform
      (fun i =>
        let M := if i < machArray.length then machArray.getD i 0 else 1
        (List.range (nCirc + 1)).map fun _ => machColor M)
      (nCirc + 1) (fun i => by simp) nStations i j hi (by omega)
    rw [applyFlowVisualizationColors, h]
    have hM : ¬ i < machArray.length := by omega
    simp only [hM, if_false]
    rw [List.get?_map, List.get?_range (by omega)]
    rfl
  · norm_num [machColor, mapRange, lerp, clamp]

/-- Witness for C10 at a concrete input: a 2-station mesh with a 1-entry Mach
array; station 1 is colored pure white. -/
theorem applyFlowVisualization_short_mach_defaults_white_witness :
    ([(1/2 : ℚ)].length ≤ 1 ∧ 1 < 2 ∧ 0 ≤ 3) ∧
      (applyFlowVisualizationColors [(1/2 : ℚ)] 2 3).get? (1 * (3 + 1) + 0) =
          some (machColor 1) ∧
        machColor 1 = (1, 1, 1) :=
  ⟨⟨by decide, by decide, by decide⟩,
    applyFlowVisualization_short_mach_defaults_white [(1/2 : ℚ)] 2 3 1 0
      (by decide) (by decide) (by decide)⟩

/-! ## C7 — degenerate (constant) array guard in the color ramps -/

/-- C7: the thermal ramp does NOT guard its `(max - min)` denominator.  For a
constant station array (`min = max`, every value equal to them — e.g. a
uniform 500 K wall), `t = (value - min) / (max - min)` is the JavaScript
division `0/0 = NaN`; the clamp and every branch test pass `NaN` through to
the final branch, which returns the triple `[1, 1 - NaN, 0] = [1, NaN, 0]`.
The green component is `NaN`, not a number in `[0,1]`, contradicting the
claim (and §7 of the spec, which requires a fixed epsilon fallback).  By
contrast the sibling ramp `coolantColor` in cooling_viz.js does guard
(`Math.max(tMax - tMin, 1)`) and yields a well-defined color on the same
degenerate input — evidence that the guard is the intent and `thermalColor`
is the slip. -/
theorem thermalColor_unguarded_nan_on_constant_array :
    thermalColor (JsVal.num 500) (JsVal.num 500) (JsVal.num 500) =
        (JsVal.num 1, JsVal.nan, JsVal.num 0) ∧
      coolantColor 500 500 500 = (0, 3/10, 1) := by
  constructor
  · have hsub : JsVal.sub (JsVal.num 500) (JsVal.num 500) = JsVal.num 0 := by
      simp [JsVal.sub]
    have hdiv : JsVal.div (JsVal.num 0) (JsVal.num 0) = JsVal.nan := by
      simp [JsVal.div]
    have hmin : JsVal.jmin (JsVal.num 1) JsVal.nan = JsVal.nan := by
      simp [JsVal.jmin]
    have hmax : JsVal.jmax (JsVal.num 0) JsVal.nan = JsVal.nan := by
      simp [JsVal.jmax]
    have hlt : ∀ q : ℚ, JsVal.lt JsVal.nan (JsVal.num q) = false := by
      intro q; simp [JsVal.lt]
    have hsubnan : JsVal.sub JsVal.nan (JsVal.num (3/4)) = JsVal.nan := by
      simp [JsVal.sub]
    have hdivnan : JsVal.div JsVal.nan (JsVal.num (1/4)) = JsVal.nan := by
      simp [JsVal.div]
    have honenan : JsVal.sub (JsVal.num 1) JsVal.nan = JsVal.nan := by
      simp [JsVal.sub]
    rw [thermalColor]
    simp only [hsub, hdiv, hmin, hmax, hlt, hsubnan, hdivnan, honenan,
      if_false, Bool.false_eq_true]
  · norm_num [coolantColor, clamp, mapRange, lerp]

/-! ## Particle lifetime lemmas -/

/-- Every element of a list is bounded by its `foldr max` against any base. -/
theorem le_foldr_max (l : List ℚ) (b : ℚ) : ∀ x ∈ l, x ≤ l.foldr max b := by
  induction l with
  | nil => intro x hx; cases hx
  | cons y ys ih =>
    intro x hx
    rcases List.mem_cons.mp hx with h | h
    · subst h; exact le_max_left _ _
    · exact le_trans (ih x h) (le_max_right _ _)

/-- The base is bounded by a `foldr max` over it. -/
theorem base_le_foldr_max (l : List ℚ) (b : ℚ) : b ≤ l.foldr max b := by
  induction l with
  | nil => exact le_refl b
  | cons y ys ih => exact le_trans ih (le_max_right _ _)

/-- `_maxVelocity` is at least `1` (the explicit `1.0` floor in
`Math.max(...velocity_m_s, 1.0)`). -/
theorem one_le_maxVelocity (vel : List ℚ) : 1 ≤ maxVelocity vel :=
  base_le_foldr_max vel 1

/-- A `getD`-read velocity is non-negative and bounded by `_maxVelocity`. -/
theorem getD_velocity_bounds (vel : List ℚ) (hv : ∀ v ∈ vel, 0 ≤ v) (i : ℕ) :
    0 ≤ vel.getD i 0 ∧ vel.getD i 0 ≤ maxVelocity vel := by
  rw [List.getD_eq_getElem?_getD]
  cases h : vel[i]? with
  | none =>
    refine ⟨le_refl 0, ?_⟩
    exact le_trans (by norm_num) (one_le_maxVelocity vel)
  | some x =>
    have hx : x ∈ vel := List.getElem?_mem h
    exact ⟨hv x hx, le_foldr_max vel 1 x hx⟩

/-- The interpolated local velocity is non-negative and bounded by
`_maxVelocity`. -/
theorem localVelocity_bounds (vel : List ℚ) (t : ℚ) (hv : ∀ v ∈ vel, 0 ≤ v) :
    0 ≤ localVelocity vel t ∧ localVelocity vel t ≤ maxVelocity vel := by
  rw [localVelocity]
  have hfr0 : (0 : ℚ) ≤ t * ((vel.length : ℚ) - 1) - ⌊t * ((vel.length : ℚ) - 1)⌋ := by
    have := Int.fract_nonneg (t * ((vel.length : ℚ) - 1))
    rw [Int.self_sub_floor]
    exact this
  have hfr1 : t * ((vel.length : ℚ) - 1) - ⌊t * ((vel.length : ℚ) - 1)⌋ < 1 := by
    have := Int.fract_lt_one (t * ((vel.length : ℚ) - 1))
    rw [Int.self_sub_floor]
    exact this
  obtain ⟨ha0, haM⟩ := getD_velocity_bounds vel hv
    (⌊t * ((vel.length : ℚ) - 1)⌋).toNat
  obtain ⟨hb0, hbM⟩ := getD_velocity_bounds vel hv
    (min (⌊t * ((vel.length : ℚ) - 1)⌋ + 1) ((vel.length : ℤ) - 1)).toNat
  constructor
  · nlinarith
  · nlinarith

/-- One tick-driven internal-flow advancement keeps a lifetime in `[0,1)`
(velocities from the solver are non-negative). -/
theorem updateInternalFlowLifetime_mem (vel : List ℚ) (l : ℚ)
    (hv : ∀ v ∈ vel, 0 ≤ v) (h0 : 0 ≤ l) (h1 : l < 1) :
    0 ≤ updateInternalFlowLifetime vel l ∧
      updateInternalFlowLifetime vel l < 1 := by
  rw [updateInternalFlowLifetime]
  have hM1 : 1 ≤ maxVelocity vel := one_le_maxVelocity vel
  have hMpos : 0 < maxVelocity vel := lt_of_lt_of_le one_pos hM1
  obtain ⟨hv0, hvM⟩ := localVelocity_bounds vel l hv
  have hsf0 : 0 ≤ localVelocity vel l / maxVelocity vel :=
    div_nonneg hv0 (le_of_lt hMpos)
  have hsf1 : localVelocity vel l / maxVelocity vel ≤ 1 :=
    (div_le_one hMpos).mpr hvM
  set sf := localVelocity vel l / maxVelocity vel with hsf
  split
  · constructor <;> nlinarith
  · constructor <;> nlinarith

/-- One per-frame internal-flow advancement keeps a lifetime in `[0,1)`. -/
theorem advanceInternalFlowLifetime_mem (l : ℚ) (h0 : 0 ≤ l) (h1 : l < 1) :
    0 ≤ advanceInternalFlowLifetime l ∧ advanceInternalFlowLifetime l < 1 := by
  rw [advanceInternalFlowLifetime]
  split <;> constructor <;> nlinarith

/-- One `updateFlame` frame keeps a plume lifetime in `[0,1]` (thrust
fraction and the two random draws non-negative, draws below `1`). -/
theorem updateFlameParticle_mem (exitX thrustScale rand resetRand : ℚ)
    (p : PlumeParticle) (hts : 0 ≤ thrustScale) (hr : 0 ≤ rand)
    (hr0 : 0 ≤ resetRand) (hr1 : resetRand < 1)
    (h0 : 0 ≤ p.lifetime) (h1 : p.lifetime ≤ 1) :
    0 ≤ (updateFlameParticle exitX thrustScale rand resetRand p).lifetime ∧
      (updateFlameParticle exitX thrustScale rand resetRand p).lifetime ≤ 1 := by
  rw [updateFlameParticle]
  split
  · exact ⟨hr0, le_of_lt hr1⟩
  · rename_i hno
    constructor
    · simp only []
      nlinarith
    · simp only []
      push_neg at hno
      linarith

/-! ## C4 — particle lifetime wraparound invariant -/

/-- Counterexample to C4 as stated: the plume reset condition is
`lifetimes[i] > 1.0` (strict).  Starting from the in-range lifetime `0.994`
with thrust fraction `0` (speed `= 0.006`) and jitter draw `0`, the advanced
lifetime is exactly `1.0`, the strict test fails, and `updateFlame` returns
with the lifetime at `1.0 ≥ 1` — outside `[0,1)`. -/
theorem plume_lifetime_reaches_one :
    (0 : ℚ) ≤ 994/1000 ∧ (994/1000 : ℚ) < 1 ∧
      (updateFlameParticle 0 0 0 (1/2)
            { pos := (0, 0, 0), lifetime := 994/1000 }).lifetime = 1 ∧
      ¬ (updateFlameParticle 0 0 0 (1/2)
            { pos := (0, 0, 0), lifetime := 994/1000 }).lifetime < 1 := by
  norm_num [updateFlameParticle]

/-- C4, amended: lifetimes never go negative for either system, and never
exceed the wrap bound, but the plume bound is the closed interval `[0,1]` —
an `updateFlame` advancement that lands exactly on `1.0` is returned as is
(the reset condition is strict `> 1.0`).  The internal-flow steps (both the
tick-driven table advancement and the per-frame fixed advancement, whose
wrap condition is `>= 1.0`) do keep lifetimes in `[0,1)`, given the solver's
non-negative velocity table. -/
theorem particle_lifetime_invariants :
    (∀ (frames : List (ℚ × ℚ × ℚ × ℚ)) (p : PlumeParticle),
        (∀ f ∈ frames, 0 ≤ f.2.1 ∧ 0 ≤ f.2.2.1 ∧ 0 ≤ f.2.2.2 ∧ f.2.2.2 < 1) →
        0 ≤ p.lifetime → p.lifetime < 1 →
        0 ≤ (updateFlameSteps frames p).lifetime ∧
          (updateFlameSteps frames p).lifetime ≤ 1) ∧
    (∀ (vel : List ℚ) (l : ℚ), vel ≠ [] → (∀ v ∈ vel, 0 ≤ v) →
        0 ≤ l → l < 1 →
        0 ≤ updateInternalFlowLifetime vel l ∧
          updateInternalFlowLifetime vel l < 1) ∧
    (∀ l : ℚ, 0 ≤ l → l < 1 →
        0 ≤ advanceInternalFlowLifetime l ∧
          advanceInternalFlowLifetime l < 1) := by
  refine ⟨?_, ?_, ?_⟩
  · have step : ∀ (frames : List (ℚ × ℚ × ℚ × ℚ)) (p : PlumeParticle),
        (∀ f ∈ frames, 0 ≤ f.2.1 ∧ 0 ≤ f.2.2.1 ∧ 0 ≤ f.2.2.2 ∧ f.2.2.2 < 1) →
        0 ≤ p.lifetime → p.lifetime ≤ 1 →
        0 ≤ (updateFlameSteps frames p).lifetime ∧
          (updateFlameSteps frames p).lifetime ≤ 1 := by
      intro frames
      induction frames with
      | nil => intro p _ h0 h1; exact ⟨h0, h1⟩
      | cons f fs ih =>
        intro p hf h0 h1
        obtain ⟨hts, hr, hrr0, hrr1⟩ := hf f (List.mem_cons_self f fs)
        have hq := updateFlameParticle_mem f.1 f.2.1 f.2.2.1 f.2.2.2 p
          hts hr hrr0 hrr1 h0 h1
        have hrest : ∀ g ∈ fs, 0 ≤ g.2.1 ∧ 0 ≤ g.2.2.1 ∧ 0 ≤ g.2.2.2 ∧
            g.2.2.2 < 1 := fun g hg => hf g (List.mem_cons_of_mem f hg)
        simp only [updateFlameSteps, List.foldl_cons] at ih ⊢
        exact ih _ hrest hq.1 hq.2
    intro frames p hf h0 h1
    exact step frames p hf h0 (le_of_lt h1)
  · intro vel l _ hv h0 h1
    exact updateInternalFlowLifetime_mem vel l hv h0 h1
  · intro l h0 h1
    exact advanceInternalFlowLifetime_mem l h0 h1

/-- Witness for the amended C4 at concrete inputs: two plume frames from
lifetime `1/2`, one internal tick on the table `[100, 50]` and one frame-only
advancement. -/
theorem particle_lifetime_invariants_witness :
    (0 ≤ (updateFlameSteps [(0, 1, 0, 0), (0, 1, 1/2, 1/2)]
            { pos := (0, 0, 0), lifetime := 1/2 }).lifetime ∧
        (updateFlameSteps [(0, 1, 0, 0), (0, 1, 1/2, 1/2)]
            { pos := (0, 0, 0), lifetime := 1/2 }).lifetime ≤ 1) ∧
      (0 ≤ updateInternalFlowLifetime [100, 50] (1/2) ∧
        updateInternalFlowLifetime [100, 50] (1/2) < 1) ∧
      (0 ≤ advanceInternalFlowLifetime (1/2) ∧
        advanceInternalFlowLifetime (1/2) < 1) :=
  ⟨particle_lifetime_invariants.1 [(0, 1, 0, 0), (0, 1, 1/2, 1/2)]
      { pos := (0, 0, 0), lifetime := 1/2 }
      (by intro f hf; fin_cases hf <;> norm_num) (by norm_num) (by norm_num),
    particle_lifetime_invariants.2.1 [100, 50] (1/2) (by simp)
      (by intro v hv; fin_cases hv <;> norm_num) (by norm_num) (by norm_num),
    particle_lifetime_invariants.2.2 (1/2) (by norm_num) (by norm_num)⟩

/-! ## C5 — plume rebirth on overflow -/

/-- Counterexample to C5 as stated: on overflow the plume particle's lifetime
does not wrap to `0` — `resetParticle` draws a fresh `Math.random()` value.
With the rebirth draw `1/2`, a particle at lifetime `0.999` under full thrust
overflows and comes back with lifetime `1/2 ≠ 0` (repositioned at the nozzle
exit). -/
theorem plume_rebirth_not_at_zero :
    updateFlameParticle 1 1 0 (1/2) { pos := (0, 0, 0), lifetime := 999/1000 } =
        { pos := (1, 0, 0), lifetime := 1/2 } ∧
      ((1 : ℚ)/2) ≠ 0 := by
  norm_num [updateFlameParticle, resetParticle]

/-- C5, amended: when an exhaust-plume particle's advancement overflows
(`lifetime + speed + jitter > 1`), the particle is reborn at the nozzle exit
`(exitX, 0, 0)` with its lifetime reset to a fresh random draw in `[0,1)` —
not to exactly `0`, and not deallocated: the per-particle update is total and
a pool maps to a pool of the same size, so the plume is an infinite,
restartable stream. -/
theorem updateFlame_overflow_rebirth (exitX thrustScale rand resetRand : ℚ)
    (p : PlumeParticle)
    (hover : 1 < p.lifetime +
        ((6/1000 + thrustScale * (8/1000)) + rand * (2/1000))) :
    updateFlameParticle exitX thrustScale rand resetRand p =
        resetParticle exitX resetRand ∧
      (resetParticle exitX resetRand).pos = (exitX, 0, 0) ∧
      (resetParticle exitX resetRand).lifetime = resetRand ∧
      (0 ≤ resetRand → resetRand < 1 →
        0 ≤ (updateFlameParticle exitX thrustScale rand resetRand p).lifetime ∧
          (updateFlameParticle exitX thrustScale rand resetRand p).lifetime < 1) ∧
      ∀ pool : List PlumeParticle,
        (pool.map (updateFlameParticle exitX thrustScale rand resetRand)).length =
          pool.length := by
  have hupd : updateFlameParticle exitX thrustScale rand resetRand p =
      resetParticle exitX resetRand := by
    rw [updateFlameParticle, if_pos hover]
  refine ⟨hupd, rfl, rfl, ?_, fun pool => List.length_map pool _⟩
  intro h0 h1
  rw [hupd]
  exact ⟨h0, h1⟩

/-- Witness for the amended C5: a particle at lifetime `0.999` under full
thrust overflows and is reborn at the exit with the fresh draw `1/2`. -/
theorem updateFlame_overflow_rebirth_witness :
    (1 : ℚ) < 999/1000 + ((6/1000 + 1 * (8/1000)) + 0 * (2/1000)) ∧
      updateFlameParticle 1 1 0 (1/2)
          { pos := (0, 0, 0), lifetime := 999/1000 } =
        resetParticle 1 (1/2) :=
  ⟨by norm_num,
    (updateFlame_overflow_rebirth 1 1 0 (1/2)
        { pos := (0, 0, 0), lifetime := 999/1000 } (by norm_num)).1⟩

/-! ## C9 — injector-face grid resolution vs. smallest orifice -/

/-- With positive orifice radii and a positive face radius, the running
minimum `minOrificeRadius` is positive. -/
theorem minOrificeRadius_pos (orifices : List Orifice) (faceRadius : ℚ)
    (hpos : ∀ o ∈ orifices, 0 < o.radius) (hface : 0 < faceRadius) :
    0 < minOrificeRadius orifices faceRadius := by
  rw [minOrificeRadius]
  suffices h : ∀ (l : List Orifice) (acc : ℚ), 0 < acc →
      (∀ o ∈ l, 0 < o.radius) →
      0 < l.foldl (fun m o => if o.radius < m then o.radius else m) acc by
    exact h orifices faceRadius hface hpos
  intro l
  induction l with
  | nil => intro acc hacc _; exact hacc
  | cons o os ih =>
    intro acc hacc hl
    rw [List.foldl_cons]
    have ho : 0 < o.radius := hl o (List.mem_cons_self o os)
    have hos : ∀ p ∈ os, 0 < p.radius :=
      fun p hp => hl p (List.mem_cons_of_mem o hp)
    split
    · exact ih o.radius ho hos
    · exact ih acc hacc hos

/-- Counterexample to C9 as stated: the radial clamp at `120` breaks the
cell-size guarantee for a small orifice.  With a face of radius `1` holding a
single orifice of radius `1/1000`, the unclamped requirement would be `1000`
radial divisions, but the grid gets `nRadial = 120`, whose radial cell size
`1/120` is larger than the orifice radius `1/1000` — so the claimed bound
"radial and angular cell size no larger than the smallest orifice's radius"
fails. -/
theorem injector_grid_clamp_counterexample :
    minOrificeRadius [{ y := 0, z := 0, radius := 1/1000, isFuel := true }] 1 =
        1/1000 ∧
      injectorNRadial 1 (1/1000) = 120 ∧
      injectorRadialCellSize 1 (1/1000) = 1/120 ∧
      ¬ injectorRadialCellSize 1 (1/1000) ≤ 1/1000 := by
  have hceil : (⌈(1 : ℚ) / (1/1000)⌉ : ℤ) = 1000 := by
    norm_num
  have hN : injectorNRadial 1 (1/1000) = 120 := by
    rw [injectorNRadial, hceil]; decide
  refine ⟨by norm_num [minOrificeRadius], hN, ?_, ?_⟩
  · rw [injectorRadialCellSize, hN]
    norm_num
  · rw [injectorRadialCellSize, hN]
    norm_num

/-- C9, amended: the clamped polar grid of
`createInjectorFaceWithOrifices` has radial cell size
(`faceRadius / nRadial`) and rim angular cell size
(`2π·faceRadius / nAngular`) no larger than the smallest orifice radius
whenever the clamps do not bite, i.e. whenever the smallest orifice radius is
at least `faceRadius/120` (radial clamp) and at least `2π·faceRadius/512`
(angular clamp).  Outside that regime the fixed upper clamps `120`/`512` cap
the resolution and the guarantee fails (see the counterexample). -/
theorem injector_grid_resolution (orifices : List Orifice) (faceRadius : ℚ)
    (segments : ℤ) (hne : orifices ≠ [])
    (hpos : ∀ o ∈ orifices, 0 < o.radius) (hface : 0 < faceRadius)
    (hrad : faceRadius ≤ 120 * minOrificeRadius orifices faceRadius)
    (hang : 2 * Real.pi * (faceRadius : ℝ) ≤
        512 * ((minOrificeRadius orifices faceRadius : ℚ) : ℝ)) :
    injectorRadialCellSize faceRadius (minOrificeRadius orifices faceRadius) ≤
        minOrificeRadius orifices faceRadius ∧
      injectorAngularCellSize faceRadius (minOrificeRadius orifices faceRadius)
          segments ≤ ((minOrificeRadius orifices faceRadius : ℚ) : ℝ) := by
  set minR := minOrificeRadius orifices faceRadius with hminR
  have hm : 0 < minR := minOrificeRadius_pos orifices faceRadius hpos hface
  constructor
  · -- radial cell size
    rw [injectorRadialCellSize, injectorNRadial]
    have hq : faceRadius / minR ≤ (120 : ℚ) := by
      rw [div_le_iff hm]
      linarith
    have hc : (⌈faceRadius / minR⌉ : ℤ) ≤ 120 := by
      rw [Int.ceil_le]
      exact_mod_cast hq
    have hmin : min 120 (max 40 ⌈faceRadius / minR⌉) =
        max 40 ⌈faceRadius / minR⌉ := by
      rw [min_eq_right]
      exact max_le (by norm_num) hc
    rw [hmin]
    have hNpos : (0 : ℤ) < max 40 ⌈faceRadius / minR⌉ :=
      lt_of_lt_of_le (by norm_num) (le_max_left _ _)
    have hNQ : (0 : ℚ) < ((max 40 ⌈faceRadius / minR⌉ : ℤ) : ℚ) := by
      exact_mod_cast hNpos
    rw [div_le_iff hNQ]
    have hge : faceRadius / minR ≤ ((max 40 ⌈faceRadius / minR⌉ : ℤ) : ℚ) := by
      refine le_trans (Int.le_ceil _) ?_
      exact_mod_cast le_max_right (40 : ℤ) _
    have := (div_le_iff hm).mp hge
    linarith [this]
  · -- angular cell size at the face rim
    rw [injectorAngularCellSize, injectorNAngular]
    have hmR : (0 : ℝ) < ((minR : ℚ) : ℝ) := by exact_mod_cast hm
    have hA : (0 : ℝ) < 2 * Real.pi * (faceRadius : ℝ) := by
      have : (0 : ℝ) < (faceRadius : ℝ) := by exact_mod_cast hface
      positivity
    have hq : 2 * Real.pi * (faceRadius : ℝ) / ((minR : ℚ) : ℝ) ≤ 512 := by
      rw [div_le_iff hmR]
      linarith
    have hc : (⌈2 * Real.pi * (faceRadius : ℝ) / ((minR : ℚ) : ℝ)⌉ : ℤ) ≤ 512 := by
      rw [Int.ceil_le]
      exact_mod_cast hq
    have hcpos : (0 : ℤ) < ⌈2 * Real.pi * (faceRadius : ℝ) / ((minR : ℚ) : ℝ)⌉ :=
      Int.ceil_pos.mpr (div_pos hA hmR)
    have hge : (⌈2 * Real.pi * (faceRadius : ℝ) / ((minR : ℚ) : ℝ)⌉ : ℤ) ≤
        min 512 (max segments ⌈2 * Real.pi * (faceRadius : ℝ) / ((minR : ℚ) : ℝ)⌉) :=
      le_min hc (le_max_right _ _)
    have hNpos : (0 : ℤ) <
        min 512 (max segments ⌈2 * Real.pi * (faceRadius : ℝ) / ((minR : ℚ) : ℝ)⌉) :=
      lt_of_lt_of_le hcpos hge
    have hNR : (0 : ℝ) <
        ((min 512 (max segments ⌈2 * Real.pi * (faceRadius : ℝ) / ((minR : ℚ) : ℝ)⌉) : ℤ) : ℝ) := by
      exact_mod_cast hNpos
    rw [div_le_iff hNR]
    have hup : 2 * Real.pi * (faceRadius : ℝ) / ((minR : ℚ) : ℝ) ≤
        ((min 512 (max segments ⌈2 * Real.pi * (faceRadius : ℝ) / ((minR : ℚ) : ℝ)⌉) : ℤ) : ℝ) := by
      refine le_trans (Int.le_ceil _) ?_
      exact_mod_cast hge
    have := (div_le_iff hmR).mp hup
    linarith [this]

/-- Witness for the amended C9: one orifice of radius `1/10` on a face of
radius `1` with the default 64 circumferential segments; neither clamp bites
(`1 ≤ 120/10` and `2π ≤ 512/10`). -/
theorem injector_grid_resolution_witness :
    (([{ y := 0, z := 0, radius := 1/10, isFuel := true }] : List Orifice) ≠ [] ∧
        (1 : ℚ) ≤ 120 *
          minOrificeRadius [{ y := 0, z := 0, radius := 1/10, isFuel := true }] 1 ∧
        2 * Real.pi * ((1 : ℚ) : ℝ) ≤
          512 * ((minOrificeRadius
            [{ y := 0, z := 0, radius := 1/10, isFuel := true }] 1 : ℚ) : ℝ)) ∧
      injectorRadialCellSize 1
          (minOrificeRadius [{ y := 0, z := 0, radius := 1/10, isFuel := true }] 1) ≤
        minOrificeRadius [{ y := 0, z := 0, radius := 1/10, isFuel := true }] 1 ∧
      injectorAngularCellSize 1
          (minOrificeRadius [{ y := 0, z := 0, radius := 1/10, isFuel := true }] 1)
          64 ≤
        ((minOrificeRadius [{ y := 0, z := 0, radius := 1/10, isFuel := true }] 1 :
          ℚ) : ℝ) := by
  have hmin : minOrificeRadius
      [{ y := 0, z := 0, radius := 1/10, isFuel := true }] 1 = 1/10 := by
    norm_num [minOrificeRadius]
  have hpi : Real.pi < 3.15 := Real.pi_lt_315
  refine ⟨⟨by simp, ?_, ?_⟩, ?_⟩
  · rw [hmin]; norm_num
  · rw [hmin]; push_cast; nlinarith
  · exact injector_grid_resolution
      [{ y := 0, z := 0, radius := 1/10, isFuel := true }] 1 64 (by simp)
      (by intro o ho; fin_cases ho <;> norm_num) (by norm_num)
      (by rw [hmin]; norm_num)
      (by rw [hmin]; push_cast; nlinarith)

/-! ## C6 — plume half-angle monotonicity in the pressure ratio -/

/-- Numeric bound used for the widening clamp: `e^3.75 ≤ 100`. -/
theorem exp_cap_le_100 : Real.exp 3.75 ≤ 100 := by
  have h4 : Real.exp (3.75 : ℝ) ≤ Real.exp (4 : ℝ) := by
    rw [Real.exp_le_exp]
    norm_num
  have he : Real.exp 1 ^ (4 : ℕ) = Real.exp (4 : ℝ) := by
    rw [Real.exp_one_pow]
    norm_num
  have hpow : Real.exp 1 ^ (4 : ℕ) < 2.7182818286 ^ (4 : ℕ) := by
    refine pow_lt_pow_left Real.exp_one_lt_d9 (le_of_lt (Real.exp_pos 1)) ?_
    norm_num
  have hnum : (2.7182818286 : ℝ) ^ (4 : ℕ) < 100 := by norm_num
  nlinarith

/-- Numeric bound the other way: `2 ≤ e^3.75`. -/
theorem two_le_exp_cap : (2 : ℝ) ≤ Real.exp 3.75 := by
  have h1 : Real.exp 1 ≤ Real.exp (3.75 : ℝ) := by
    rw [Real.exp_le_exp]
    norm_num
  have := Real.exp_one_gt_d9
  linarith

/-- Counterexample to C6 as stated: with the exit Mach fixed at `3`, the
widening factor `min(1 + 0.4*log(ratio), 2.5)` saturates at `2.5` once the
pressure ratio exceeds `e^3.75 ≈ 42.5`, so the half-angle is NOT strictly
increasing for all ratios above `1.0`: it takes the same value at the ratios
`100` and `200`. -/
theorem plumeHalfAngle_saturates_above_cap :
    (100 : ℝ) < 200 ∧ plumeHalfAngle 3 100 = plumeHalfAngle 3 200 := by
  refine ⟨by norm_num, ?_⟩
  have hlog100 : (3.75 : ℝ) ≤ Real.log 100 := by
    rw [Real.le_log_iff_exp_le (by norm_num : (0:ℝ) < 100)]
    exact exp_cap_le_100
  have hlog200 : (3.75 : ℝ) ≤ Real.log 200 := by
    rw [Real.le_log_iff_exp_le (by norm_num : (0:ℝ) < 200)]
    exact le_trans exp_cap_le_100 (by norm_num)
  rw [plumeHalfAngle, plumeHalfAngle,
    if_pos (by norm_num : (1:ℝ) < 100), if_pos (by norm_num : (1:ℝ) < 200),
    min_eq_right (by linarith : (2.5:ℝ) ≤ 1 + 0.4 * Real.log 100),
    min_eq_right (by linarith : (2.5:ℝ) ≤ 1 + 0.4 * Real.log 200)]

/-- C6, amended: with the exit Mach held fixed, the derived plume half-angle
is strictly increasing in the pressure ratio on the interval between the two
clamps, `[0.3, e^3.75]` (the narrowing factor floors at `0.15` for ratios
at/below `0.3`, the widening factor caps at `2.5` for ratios at/above
`e^3.75`); outside that interval it is constant on either side. -/
theorem plumeHalfAngle_strictMono_between_clamps (M r1 r2 : ℝ)
    (hlo : 0.3 ≤ r1) (hlt : r1 < r2) (hhi : r2 ≤ Real.exp 3.75) :
    plumeHalfAngle M r1 < plumeHalfAngle M r2 ∧
      (∀ q1 q2 : ℝ, q1 ≤ 0.3 → q2 ≤ 0.3 →
        plumeHalfAngle M q1 = plumeHalfAngle M q2) ∧
      (∀ q1 q2 : ℝ, Real.exp 3.75 ≤ q1 → Real.exp 3.75 ≤ q2 →
        plumeHalfAngle M q1 = plumeHalfAngle M q2) := by
  have hMpos : (0 : ℝ) < max M 1.01 :=
    lt_of_lt_of_le (by norm_num) (le_max_right M 1.01)
  have hbase : 0 < Real.arcsin (1 / max M 1.01) :=
    Real.arcsin_pos.mpr (by positivity)
  refine ⟨?_, ?_, ?_⟩
  · -- strict monotonicity between the clamps
    rcases le_or_lt r2 1 with h2le | h2gt
    · -- both ratios in the narrowing branch
      have h1le : ¬ (1 : ℝ) < r1 := by linarith
      have h2le' : ¬ (1 : ℝ) < r2 := by linarith
      rw [plumeHalfAngle, plumeHalfAngle, if_neg h1le, if_neg h2le',
        max_eq_left (by linarith : (0.15:ℝ) ≤ 0.5 * r1),
        max_eq_left (by linarith : (0.15:ℝ) ≤ 0.5 * r2)]
      have : 0.5 * r1 < 0.5 * r2 := by linarith
      exact mul_lt_mul_of_pos_left this hbase
    · rcases le_or_lt r1 1 with h1le | h1gt
      · -- r1 in the narrowing branch, r2 in the widening branch
        have hlog2 : 0 < Real.log r2 := Real.log_pos h2gt
        rw [plumeHalfAngle, plumeHalfAngle, if_neg (not_lt.mpr h1le),
          if_pos h2gt,
          max_eq_left (by linarith : (0.15:ℝ) ≤ 0.5 * r1)]
        have hfac : 0.5 * r1 < min (1 + 0.4 * Real.log r2) 2.5 := by
          rw [lt_min_iff]
          constructor <;> nlinarith
        exact mul_lt_mul_of_pos_left hfac hbase
      · -- both ratios in the widening branch
        have hr1pos : (0 : ℝ) < r1 := by linarith
        have hr2pos : (0 : ℝ) < r2 := by linarith
        have hlog12 : Real.log r1 < Real.log r2 := Real.log_lt_log hr1pos hlt
        have hlog1cap : Real.log r1 < 3.75 := by
          rw [Real.log_lt_iff_lt_exp hr1pos]
          exact lt_of_lt_of_le hlt hhi
        have hlog2cap : Real.log r2 ≤ 3.75 := by
          rw [Real.log_le_iff_le_exp hr2pos]
          exact hhi
        rw [plumeHalfAngle, plumeHalfAngle, if_pos h1gt, if_pos h2gt,
          min_eq_left (by linarith : 1 + 0.4 * Real.log r1 ≤ (2.5:ℝ))]
        have hfac : 1 + 0.4 * Real.log r1 < min (1 + 0.4 * Real.log r2) 2.5 := by
          rw [lt_min_iff]
          constructor <;> nlinarith
        exact mul_lt_mul_of_pos_left hfac hbase
  · -- constant at/below the 0.15 floor
    intro q1 q2 hq1 hq2
    have h1 : ¬ (1 : ℝ) < q1 := by linarith
    have h2 : ¬ (1 : ℝ) < q2 := by linarith
    rw [plumeHalfAngle, plumeHalfAngle, if_neg h1, if_neg h2,
      max_eq_right (by linarith : 0.5 * q1 ≤ (0.15:ℝ)),
      max_eq_right (by linarith : 0.5 * q2 ≤ (0.15:ℝ))]
  · -- constant at/above the 2.5 cap
    intro q1 q2 hq1 hq2
    have hcap2 : (2 : ℝ) ≤ Real.exp 3.75 := two_le_exp_cap
    have h1 : (1 : ℝ) < q1 := by linarith
    have h2 : (1 : ℝ) < q2 := by linarith
    have hl1 : (3.75 : ℝ) ≤ Real.log q1 := by
      rw [Real.le_log_iff_exp_le (by linarith : (0:ℝ) < q1)]
      exact hq1
    have hl2 : (3.75 : ℝ) ≤ Real.log q2 := by
      rw [Real.le_log_iff_exp_le (by linarith : (0:ℝ) < q2)]
      exact hq2
    rw [plumeHalfAngle, plumeHalfAngle, if_pos h1, if_pos h2,
      min_eq_right (by linarith : (2.5:ℝ) ≤ 1 + 0.4 * Real.log q1),
      min_eq_right (by linarith : (2.5:ℝ) ≤ 1 + 0.4 * Real.log q2)]

/-- Witness for the amended C6: at exit Mach `3` the half-angle at ratio
`1/2` is strictly below the half-angle at ratio `2` (both ratios lie between
the clamps). -/
theorem plumeHalfAngle_strictMono_witness :
    ((0.3 : ℝ) ≤ 1/2 ∧ (1/2 : ℝ) < 2 ∧ (2 : ℝ) ≤ Real.exp 3.75) ∧
      plumeHalfAngle 3 (1/2) < plumeHalfAngle 3 2 :=
  ⟨⟨by norm_num, by norm_num, two_le_exp_cap⟩,
    (plumeHalfAngle_strictMono_between_clamps 3 (1/2) 2 (by norm_num)
        (by norm_num) two_le_exp_cap).1⟩

/-! ## Revolved-surface lemmas (C1, C8) -/

/-- Each lathe row emits exactly `segments + 1` vertices. -/
theorem latheRow_length (profile2d : List (ℝ × ℝ)) (segments i : ℕ) :
    (latheRow profile2d segments i).length = segments + 1 := by
  simp [latheRow]

/-- Forward difference: while `i < nAxial - 1` the tangent reads station
`i+1`. -/
theorem stationDelta_forward (profile2d : List (ℝ × ℝ)) (i : ℕ)
    (h : i + 1 < profile2d.length) :
    stationDelta profile2d i =
      some ((profile2d.getD (i + 1) (0, 0)).1 - (profile2d.getD i (0, 0)).1,
        (profile2d.getD (i + 1) (0, 0)).2 - (profile2d.getD i (0, 0)).2) := by
  have hi : i < profile2d.length := by omega
  rw [stationDelta, List.get?_eq_get hi, List.get?_eq_get h,
    List.getD_eq_get profile2d (0, 0) hi, List.getD_eq_get profile2d (0, 0) h]
  simp [if_pos h]

/-- Backward difference at the last station (provided it is not station 0):
the tangent reads station `i-1`. -/
theorem stationDelta_backward (profile2d : List (ℝ × ℝ)) (i : ℕ)
    (hi : i < profile2d.length) (hlast : ¬ i + 1 < profile2d.length)
    (h0 : i ≠ 0) :
    stationDelta profile2d i =
      some ((profile2d.getD i (0, 0)).1 - (profile2d.getD (i - 1) (0, 0)).1,
        (profile2d.getD i (0, 0)).2 - (profile2d.getD (i - 1) (0, 0)).2) := by
  have hprev : i - 1 < profile2d.length := by omega
  rw [stationDelta, List.get?_eq_get hi, List.get?_eq_get hprev,
    List.getD_eq_get profile2d (0, 0) hi, List.getD_eq_get profile2d (0, 0) hprev]
  simp [if_neg hlast, h0]

/-- With at least two stations every station's tangent exists and, for a
profile with strictly increasing axial positions, has positive axial
component `dx`. -/
theorem stationDelta_exists_pos (profile2d : List (ℝ × ℝ))
    (hN : 2 ≤ profile2d.length) (i : ℕ) (hi : i < profile2d.length) :
    ∃ dx dr, stationDelta profile2d i = some (dx, dr) ∧
      (List.Chain' (fun p q : ℝ × ℝ => p.1 < q.1) profile2d → 0 < dx) := by
  by_cases h : i + 1 < profile2d.length
  · refine ⟨_, _, stationDelta_forward profile2d i h, ?_⟩
    intro hchain
    have hadj := List.chain'_iff_get.mp hchain i (by omega)
    rw [List.getD_eq_get profile2d (0, 0) (by omega : i < profile2d.length),
      List.getD_eq_get profile2d (0, 0) h]
    have : (profile2d.get ⟨i, by omega⟩).1 < (profile2d.get ⟨i + 1, h⟩).1 := hadj
    linarith
  · have h0 : i ≠ 0 := by omega
    refine ⟨_, _, stationDelta_backward profile2d i hi h h0, ?_⟩
    intro hchain
    have hadj := List.chain'_iff_get.mp hchain (i - 1) (by omega)
    have hidx : i - 1 + 1 = i := by omega
    rw [List.getD_eq_get profile2d (0, 0) hi,
      List.getD_eq_get profile2d (0, 0) (by omega : i - 1 < profile2d.length)]
    simp only [hidx] at hadj
    have : (profile2d.get ⟨i - 1, by omega⟩).1 < (profile2d.get ⟨i, hi⟩).1 := by
      convert hadj using 3 <;> omega
    linarith

/-! ## C1 — revolved-surface vertex/triangle counts and normal direction -/

/-- The vertex stored at column `j` of lathe row `i`: the position and the
normal at the same index share the column's azimuth
`theta = latheTheta segments j`. -/
theorem latheRow_get (profile2d : List (ℝ × ℝ)) (segments i j : ℕ)
    (hj : j < segments + 1) :
    ((latheRow profile2d segments i).map Prod.fst).get? j =
        some ((profile2d.getD i (0, 0)).1,
          (profile2d.getD i (0, 0)).2 * Real.cos (latheTheta segments j),
          (profile2d.getD i (0, 0)).2 * Real.sin (latheTheta segments j)) ∧
      ((latheRow profile2d segments i).map Prod.snd).get? j =
        some ((stationNormal profile2d i).1,
          (stationNormal profile2d i).2 * Real.cos (latheTheta segments j),
          (stationNormal profile2d i).2 * Real.sin (latheTheta segments j)) := by
  simp only [latheRow]
  constructor <;>
    · rw [List.get?_map, List.get?_map, List.get?_range hj]
      rfl

/-- C1: for every profile with `N ≥ 2` stations and every segment count
`S ≥ 3`, `createLatheGeometry` succeeds and returns exactly `N*(S+1)`
vertices and `2*(N-1)*S` indexed triangles; and when the profile's axial
positions are strictly increasing, every stored outer-wall normal — the
normal the geometry attaches to each corner of every triangle — points away
from the engine axis.  Concretely, at flat vertex index `i*(S+1)+j` the
stored position is `(x_i, r_i·cos θ, r_i·sin θ)` and the stored normal is
`(nx, nr·cos θ, nr·sin θ)` for the SAME azimuth `θ = latheTheta S j` of that
vertex's column, so the unit radial direction at the vertex is
`(0, cos θ, sin θ)` and the normal's radial component — its dot product with
that direction, `nr·cos²θ + nr·sin²θ = nr` — is positive. -/
theorem createLatheGeometry_counts_and_normals (profile2d : List (ℝ × ℝ))
    (S : ℕ) (hN : 2 ≤ profile2d.length) (hS : 3 ≤ S) :
    ∃ g, createLatheGeometry profile2d S = some g ∧
      g.positions.length = profile2d.length * (S + 1) ∧
      g.indices.length = 2 * (profile2d.length - 1) * S ∧
      (List.Chain' (fun p q : ℝ × ℝ => p.1 < q.1) profile2d →
        ∀ i j, i < profile2d.length → j ≤ S →
          ∃ nx nr,
            g.normals.get? (i * (S + 1) + j) =
              some (nx, nr * Real.cos (latheTheta S j),
                nr * Real.sin (latheTheta S j)) ∧
            g.positions.get? (i * (S + 1) + j) =
              some ((profile2d.getD i (0, 0)).1,
                (profile2d.getD i (0, 0)).2 * Real.cos (latheTheta S j),
                (profile2d.getD i (0, 0)).2 * Real.sin (latheTheta S j)) ∧
            nr * Real.cos (latheTheta S j) * Real.cos (latheTheta S j) +
              nr * Real.sin (latheTheta S j) * Real.sin (latheTheta S j) =
                nr ∧
            0 < nr) := by
  have hnocrash : ¬ ∃ i < profile2d.length, stationDelta profile2d i = none := by
    rintro ⟨i, hi, hnone⟩
    obtain ⟨dx, dr, hsome, -⟩ := stationDelta_exists_pos profile2d hN i hi
    rw [hsome] at hnone
    exact Option.noConfusion hnone
  refine ⟨_, by rw [createLatheGeometry, if_neg hnocrash], ?_, ?_, ?_⟩
  · -- vertex count: N rows of S+1 vertices
    rw [List.length_flatMap]
    have hmap : (List.range profile2d.length).map
        (List.length ∘ fun i => (latheRow profile2d S i).map Prod.fst) =
        List.replicate profile2d.length (S + 1) := by
      have h2 : ((List.range profile2d.length).map
          (List.length ∘ fun i => (latheRow profile2d S i).map Prod.fst)).length =
          profile2d.length := by simp
      conv_rhs => rw [← h2]
      refine List.eq_replicate_length.mpr ?_
      intro b hb
      rw [List.mem_map] at hb
      obtain ⟨i, -, hi⟩ := hb
      rw [← hi]
      simp [latheRow_length]
    rw [hmap, List.sum_replicate, smul_eq_mul]
  · -- triangle count: (N-1)*S quads, two triangles each
    rw [latheIndices, List.length_flatMap]
    have hinner : ∀ i : ℕ,
        ((List.range S).flatMap fun j =>
          [(i * (S + 1) + j, (i + 1) * (S + 1) + j, i * (S + 1) + j + 1),
           (i * (S + 1) + j + 1, (i + 1) * (S + 1) + j,
             (i + 1) * (S + 1) + j + 1)]).length = 2 * S := by
      intro i
      rw [List.length_flatMap]
      have hrep : (List.range S).map (List.length ∘ fun j =>
          [(i * (S + 1) + j, (i + 1) * (S + 1) + j, i * (S + 1) + j + 1),
           (i * (S + 1) + j + 1, (i + 1) * (S + 1) + j,
             (i + 1) * (S + 1) + j + 1)]) = List.replicate S 2 := by
        have h2 : ((List.range S).map (List.length ∘ fun j =>
            [(i * (S + 1) + j, (i + 1) * (S + 1) + j, i * (S + 1) + j + 1),
             (i * (S + 1) + j + 1, (i + 1) * (S + 1) + j,
               (i + 1) * (S + 1) + j + 1)])).length = S := by simp
        conv_rhs => rw [← h2]
        refine List.eq_replicate_length.mpr ?_
        intro b hb
        rw [List.mem_map] at hb
        obtain ⟨j, -, hj⟩ := hb
        rw [← hj]
        rfl
      rw [hrep, List.sum_replicate, smul_eq_mul]
      ring
    have hmap : (List.range (profile2d.length - 1)).map
        (List.length ∘ fun i => (List.range S).flatMap fun j =>
          let a := i * (S + 1) + j
          let b := a + 1
          let c := (i + 1) * (S + 1) + j
          let d := c + 1
          [(a, c, b), (b, c, d)]) =
        List.replicate (profile2d.length - 1) (2 * S) := by
      have h2 : ((List.range (profile2d.length - 1)).map
          (List.length ∘ fun i => (List.range S).flatMap fun j =>
            let a := i * (S + 1) + j
            let b := a + 1
            let c := (i + 1) * (S + 1) + j
            let d := c + 1
            [(a, c, b), (b, c, d)])).length = profile2d.length - 1 := by simp
      conv_rhs => rw [← h2]
      refine List.eq_replicate_length.mpr ?_
      intro b hb
      rw [List.mem_map] at hb
      obtain ⟨i, -, hi⟩ := hb
      rw [← hi]
      exact hinner i
    rw [hmap, List.sum_replicate, smul_eq_mul]
    ring
  · -- outward normals under strictly increasing axial positions
    intro hchain i j hi hj
    obtain ⟨dx, dr, hsome, hpos⟩ := stationDelta_exists_pos profile2d hN i hi
    have hdx : 0 < dx := hpos hchain
    have hsqrt : 0 < Real.sqrt (dx * dx + dr * dr) :=
      Real.sqrt_pos.mpr (by nlinarith)
    have hnrm : stationNormal profile2d i =
        (-dr / Real.sqrt (dx * dx + dr * dr),
          dx / Real.sqrt (dx * dx + dr * dr)) := by
      rw [stationNormal, hsome]
      simp only [Option.getD_some]
      rw [if_neg (ne_of_gt hsqrt)]
    obtain ⟨hrowp, hrown⟩ := latheRow_get profile2d S i j (by omega)
    have hnget := flatMap_range_get_uniform
      (fun m => (latheRow profile2d S m).map Prod.snd) (S + 1)
      (fun m => by simp [latheRow_length]) profile2d.length i j hi (by omega)
    have hpget := flatMap_range_get_uniform
      (fun m => (latheRow profile2d S m).map Prod.fst) (S + 1)
      (fun m => by simp [latheRow_length]) profile2d.length i j hi (by omega)
    refine ⟨-dr / Real.sqrt (dx * dx + dr * dr),
      dx / Real.sqrt (dx * dx + dr * dr), ?_, ?_, ?_, ?_⟩
    · refine hnget.trans ?_
      rw [hrown, hnrm]
    · exact hpget.trans hrowp
    · have htrig := Real.sin_sq_add_cos_sq (latheTheta S j)
      set c := Real.cos (latheTheta S j)
      set s := Real.sin (latheTheta S j)
      set q := dx / Real.sqrt (dx * dx + dr * dr)
      linear_combination q * htrig
    · exact div_pos hdx hsqrt

/-- Witness for C1 at a concrete input: the two-station profile
`[(0, 2), (1, 1)]` with `S = 3` segments. -/
theorem createLatheGeometry_counts_and_normals_witness :
    (2 ≤ ([((0 : ℝ), (2 : ℝ)), (1, 1)] : List (ℝ × ℝ)).length ∧ 3 ≤ 3) ∧
      ∃ g, createLatheGeometry [((0 : ℝ), (2 : ℝ)), (1, 1)] 3 = some g ∧
        g.positions.length = ([((0 : ℝ), (2 : ℝ)), (1, 1)] : List (ℝ × ℝ)).length * (3 + 1) ∧
        g.indices.length =
          2 * (([((0 : ℝ), (2 : ℝ)), (1, 1)] : List (ℝ × ℝ)).length - 1) * 3 ∧
        (List.Chain' (fun p q : ℝ × ℝ => p.1 < q.1)
            [((0 : ℝ), (2 : ℝ)), (1, 1)] →
          ∀ i j, i < ([((0 : ℝ), (2 : ℝ)), (1, 1)] : List (ℝ × ℝ)).length →
            j ≤ 3 →
            ∃ nx nr,
              g.normals.get? (i * (3 + 1) + j) =
                some (nx, nr * Real.cos (latheTheta 3 j),
                  nr * Real.sin (latheTheta 3 j)) ∧
              g.positions.get? (i * (3 + 1) + j) =
                some ((([((0 : ℝ), (2 : ℝ)), (1, 1)] : List (ℝ × ℝ)).getD i (0, 0)).1,
                  (([((0 : ℝ), (2 : ℝ)), (1, 1)] : List (ℝ × ℝ)).getD i (0, 0)).2 *
                    Real.cos (latheTheta 3 j),
                  (([((0 : ℝ), (2 : ℝ)), (1, 1)] : List (ℝ × ℝ)).getD i (0, 0)).2 *
                    Real.sin (latheTheta 3 j)) ∧
              nr * Real.cos (latheTheta 3 j) * Real.cos (latheTheta 3 j) +
                nr * Real.sin (latheTheta 3 j) * Real.sin (latheTheta 3 j) =
                  nr ∧
              0 < nr) :=
  ⟨⟨by simp, by norm_num⟩,
    createLatheGeometry_counts_and_normals [((0 : ℝ), (2 : ℝ)), (1, 1)] 3
      (by simp) (by norm_num)⟩

/-! ## C8 — mesh builders on profiles with fewer than 2 stations -/

/-- C8 evaluated at the failing inputs: the mesh builders CRASH on station
counts below 2 instead of returning an empty result.  For a single-station
profile, `createLatheGeometry`'s backward difference at station 0 reads
`profile2d[-1][0]` — `undefined[0]`, a thrown `TypeError` (`none`).  For an
empty profile, `createLatheGeometry` itself returns an empty geometry with no
triangles (the claimed behaviour), but `buildEngineMesh` then reads
`profile2d[0][0]` for the chamber end cap — again a thrown `TypeError`. -/
theorem meshBuilders_crash_on_degenerate_profiles :
    createLatheGeometry [((0 : ℝ), (5 : ℝ))] 64 = none ∧
      buildEngineMesh ([] : List (ℝ × ℝ)) [] 64 = none ∧
      ∃ g, createLatheGeometry ([] : List (ℝ × ℝ)) 64 = some g ∧
        g.positions = [] ∧ g.normals = [] ∧ g.indices = [] := by
  have hdelta : stationDelta [((0 : ℝ), (5 : ℝ))] 0 = none := rfl
  have hempty : createLatheGeometry ([] : List (ℝ × ℝ)) 64 =
      some { positions := [], normals := [], indices := [] } := by
    rw [createLatheGeometry, if_neg]
    · simp [latheIndices]
    · rintro ⟨i, hi, -⟩
      simp at hi
  refine ⟨?_, ?_, ?_⟩
  · rw [createLatheGeometry, if_pos]
    exact ⟨0, by norm_num, hdelta⟩
  · rw [buildEngineMesh, hempty]
    simp
  · exact ⟨_, hempty, rfl, rfl, rfl⟩

/-! ## C3 — Thermal, Stress, None restores the captured wall material -/

/-- C3: starting from a freshly built engine mesh whose outer wall holds
material `m0` and overlay modules that have not yet captured an original
material (`originalMaterial` of heat_map.js and stress_overlay.js both null,
cooling shader inactive), running the controller sequence
Thermal → Stress → None leaves the outer wall's material reference equal to
`m0` — the reference captured by the heat map on its first apply.  The lazily
cached overlay materials may or may not already exist; the result holds
either way.  The key ordering fact is that `applyVisualization` runs
`clearHeatMap()` (restoring `m0`) before `applyStressOverlay` captures its
own original. -/
theorem thermal_stress_none_restores_material (m0 : ℕ) (s0 : VizState)
    (d1 d2 d3 : TickData) (hmesh : s0.meshMat = m0)
    (hho : s0.heatOrig = none) (hso : s0.stressOrig = none)
    (hca : s0.channelActive = false)
    (hd1s : d1.hasSimData = true) (hd1 : d1.hasWallTemp = true)
    (hd2s : d2.hasSimData = true) (hd2 : d2.hasStress = true)
    (hd3s : d3.hasSimData = true) :
    (applyVisualization VizMode.normal d3
        (applyVisualization VizMode.stress d2
          (applyVisualization VizMode.heatmap d1 s0))).meshMat = m0 := by
  obtain ⟨n0, mm0, ho0, hm0, so0, sm0, fa0, ca0, cm0, cs0, iv0⟩ := s0
  simp only at hmesh hho hso hca
  subst hmesh hho hso hca
  cases fa0 <;> cases hm0 <;> cases sm0 <;>
    simp [applyVisualization, applyVisualizationT, clearHeatMap,
      clearStressOverlay, clearFlowViz, clearCoolingViz, applyHeatMap,
      applyStressOverlay, hd1s, hd1, hd2s, hd2, hd3s]

/-- Witness for C3 from the freshly loaded page state (`m0 = 0`) with full
tick data at each step. -/
theorem thermal_stress_none_restores_material_witness :
    (initVizState.meshMat = 0 ∧ initVizState.heatOrig = none ∧
        initVizState.stressOrig = none ∧ initVizState.channelActive = false) ∧
      (applyVisualization VizMode.normal
          ⟨true, true, true, true, true, true, true⟩
          (applyVisualization VizMode.stress
            ⟨true, true, true, true, true, true, true⟩
            (applyVisualization VizMode.heatmap
              ⟨true, true, true, true, true, true, true⟩
              initVizState))).meshMat = 0 :=
  ⟨⟨rfl, rfl, rfl, rfl⟩,
    thermal_stress_none_restores_material 0 initVizState
      ⟨true, true, true, true, true, true, true⟩
      ⟨true, true, true, true, true, true, true⟩
      ⟨true, true, true, true, true, true, true⟩
      rfl rfl rfl rfl rfl rfl rfl rfl rfl⟩

/-! ## Overlay state-machine lemmas (C2) -/

/-- Composing the three unconditional clears is a single state update: the
mesh material becomes the stress original if captured, else the heat
original if captured, else stays; the flow flag drops. -/
theorem clearHSF_eq (s : VizState) :
    clearFlowViz (clearStressOverlay (clearHeatMap s)) =
      { s with meshMat := s.stressOrig.getD (s.heatOrig.getD s.meshMat),
               flowApplied := false } := by
  obtain ⟨n, mm, ho, hm, so, sm, fa, ca, cm, cs, iv⟩ := s
  cases ho <;> cases so <;> cases fa <;> rfl

/-- Changing only the mesh material preserves the health invariant provided
the new material is in bounds and each overlay material can only coincide
with it when that overlay's original/save was captured. -/
theorem vizInv_update_meshMat (s : VizState) (m : ℕ) (h : VizInv s)
    (hb : m < s.nextId)
    (h1 : s.heatMat = some m → s.heatOrig.isSome = true)
    (h2 : s.stressMat = some m → s.stressOrig.isSome = true)
    (h3 : s.channelMat = some m → s.channelSaved.isSome = true) :
    VizInv { s with meshMat := m } := by
  unfold VizInv at h ⊢
  obtain ⟨⟨b1, b2, b3, b4, b5, b6, b7⟩, hd, hc, ⟨a1, a2, a3⟩, he⟩ := h
  exact ⟨⟨hb, b2, b3, b4, b5, b6, b7⟩, hd, hc, ⟨h1, h2, h3⟩, he⟩

/-- The restored mesh material after the three clears: in bounds, and never
one of the three overlay materials unless the corresponding original was
captured — in particular the heat and stress overlays are inactive after the
clears. -/
theorem clearedMeshMat_spec (s : VizState) (h : VizInv s) :
    s.stressOrig.getD (s.heatOrig.getD s.meshMat) < s.nextId ∧
      (s.heatMat = some (s.stressOrig.getD (s.heatOrig.getD s.meshMat)) →
        s.heatOrig.isSome = true) ∧
      s.heatMat ≠ some (s.stressOrig.getD (s.heatOrig.getD s.meshMat)) ∧
      (s.stressMat = some (s.stressOrig.getD (s.heatOrig.getD s.meshMat)) →
        s.stressOrig.isSome = true) ∧
      s.stressMat ≠ some (s.stressOrig.getD (s.heatOrig.getD s.meshMat)) ∧
      (s.channelMat = some (s.stressOrig.getD (s.heatOrig.getD s.meshMat)) →
        s.channelSaved.isSome = true) := by
  obtain ⟨n, mm, ho, hm, so, sm, fa, ca, cm, cs, iv⟩ := s
  unfold VizInv belowOpt diffOpt at h
  cases ho <;> cases so <;> cases hm <;> cases sm <;> cases cm <;>
    simp_all <;> omega

/-- The three unconditional clears preserve the health invariant, leave the
flow overlay inactive, deactivate the heat and stress overlays, and do not
touch the overlay material references or the cooling fields. -/
theorem clearHSF_spec (s : VizState) (h : VizInv s) :
    VizInv (clearFlowViz (clearStressOverlay (clearHeatMap s))) ∧
      (clearFlowViz (clearStressOverlay (clearHeatMap s))).flowApplied = false ∧
      (clearFlowViz (clearStressOverlay (clearHeatMap s))).heatMat ≠
        some (clearFlowViz (clearStressOverlay (clearHeatMap s))).meshMat ∧
      (clearFlowViz (clearStressOverlay (clearHeatMap s))).stressMat ≠
        some (clearFlowViz (clearStressOverlay (clearHeatMap s))).meshMat ∧
      (clearFlowViz (clearStressOverlay (clearHeatMap s))).heatMat = s.heatMat ∧
      (clearFlowViz (clearStressOverlay (clearHeatMap s))).stressMat = s.stressMat ∧
      (clearFlowViz (clearStressOverlay (clearHeatMap s))).channelMat = s.channelMat ∧
      (clearFlowViz (clearStressOverlay (clearHeatMap s))).channelSaved = s.channelSaved ∧
      (clearFlowViz (clearStressOverlay (clearHeatMap s))).channelActive = s.channelActive ∧
      (clearFlowViz (clearStressOverlay (clearHeatMap s))).nextId = s.nextId := by
  obtain ⟨hb, hh1, hh2, hs1, hs2, hc1⟩ := clearedMeshMat_spec s h
  rw [clearHSF_eq]
  have hinv : VizInv { s with
      meshMat := s.stressOrig.getD (s.heatOrig.getD s.meshMat),
      flowApplied := false } := by
    have := vizInv_update_meshMat s
      (s.stressOrig.getD (s.heatOrig.getD s.meshMat)) h hb hh1 hs1 hc1
    exact this
  exact ⟨hinv, rfl, hh2, hs2, rfl, rfl, rfl, rfl, rfl, rfl⟩

/-- `diffOpt` holds whenever the right reference is absent. -/
theorem diffOpt_none_right (a : Option ℕ) : diffOpt a none := by
  unfold diffOpt; cases a <;> trivial

/-- `diffOpt` holds whenever the left reference is absent. -/
theorem diffOpt_none_left (b : Option ℕ) : diffOpt none b := by
  unfold diffOpt; cases b <;> trivial

/-- Normal form of `clearCoolingViz` on a healthy state: the cooling fields
are reset and the mesh material either stays or is the saved original. -/
theorem clearCoolingViz_eq (s : VizState) (h : VizInv s) :
    ∃ mNew, clearCoolingViz s =
      { s with meshMat := mNew, channelMat := none, channelSaved := none,
               channelActive := false } ∧
      (mNew = s.meshMat ∨ s.channelSaved = some mNew) := by
  obtain ⟨n, mm, ho, hm, so, sm, fa, ca, cm, cs, iv⟩ := s
  cases ca with
  | false =>
    have he := h.2.2.2.2 rfl
    simp only at he
    obtain ⟨hcm, hcs⟩ := he
    subst hcm hcs
    exact ⟨mm, rfl, Or.inl rfl⟩
  | true =>
    cases cs with
    | none => exact ⟨mm, rfl, Or.inl rfl⟩
    | some m =>
      unfold clearCoolingViz
      simp only
      by_cases hcm : cm = some mm
      · subst hcm
        simp only [if_pos rfl]
        exact ⟨m, rfl, Or.inr rfl⟩
      · rw [if_neg hcm]
        exact ⟨mm, rfl, Or.inl rfl⟩

/-- The invariant survives the cooling-clear normal form, and the heat and
stress overlays stay inactive afterwards. -/
theorem vizInv_clearCooling_form (s : VizState) (mNew : ℕ) (h : VizInv s)
    (hsrc : mNew = s.meshMat ∨ s.channelSaved = some mNew)
    (hhm : s.heatMat ≠ some s.meshMat) (hsm : s.stressMat ≠ some s.meshMat) :
    VizInv { s with
      meshMat := mNew
      channelMat := none
      channelSaved := none
      channelActive := false } ∧
      s.heatMat ≠ some mNew ∧ s.stressMat ≠ some mNew := by
  obtain ⟨⟨b1, b2, b3, b4, b5, b6, b7⟩, ⟨d1, d2, d3⟩,
    ⟨o1, o2, o3, o4, o5, o6, o7, o8, o9⟩, ⟨a1, a2, a3⟩, he⟩ := h
  have hbound : mNew < s.nextId := by
    rcases hsrc with rfl | hcs
    · exact b1
    · unfold belowOpt at b7
      rw [hcs] at b7
      exact b7
  have hh : s.heatMat ≠ some mNew := by
    rcases hsrc with rfl | hcs
    · exact hhm
    · intro hcon
      rw [hcs, hcon] at o7
      unfold diffOpt at o7
      exact o7 rfl
  have hs : s.stressMat ≠ some mNew := by
    rcases hsrc with rfl | hcs
    · exact hsm
    · intro hcon
      rw [hcs, hcon] at o8
      unfold diffOpt at o8
      exact o8 rfl
  refine ⟨⟨⟨hbound, b2, b3, b4, b5, trivial, trivial⟩,
    ⟨d1, diffOpt_none_right _, diffOpt_none_right _⟩,
    ⟨o1, o2, diffOpt_none_right _, o4, o5, diffOpt_none_right _,
      diffOpt_none_left _, diffOpt_none_left _, diffOpt_none_left _⟩,
    ⟨fun hcon => absurd hcon hh, fun hcon => absurd hcon hs,
      fun hcon => Option.noConfusion hcon⟩,
    fun _ => ⟨rfl, rfl⟩⟩, hh, hs⟩

/-- Applying the heat map after the clears (flow flag down, cooling shader
torn down, stress not on the mesh) keeps the invariant and leaves at most the
heat overlay active. -/
theorem applyHeatMap_spec (s : VizState) (h : VizInv s)
    (hsm : s.stressMat ≠ some s.meshMat) (hcm : s.channelMat = none)
    (hca : s.channelActive = false) (hfa : s.flowApplied = false) :
    VizInv (applyHeatMap s) ∧ atMostOneOverlay (applyHeatMap s) := by
  obtain ⟨n, mm, ho, hm, so, sm, fa, ca, cm, cs, iv⟩ := s
  simp only at hsm hcm hca hfa
  subst hcm hca hfa
  unfold VizInv belowOpt diffOpt at h
  unfold applyHeatMap
  cases ho <;> cases hm <;> cases so <;> cases sm <;> cases cs <;>
    unfold VizInv belowOpt diffOpt atMostOneOverlay heatActive stressActive
      flowActive coolingActive <;>
    simp_all <;> omega

/-- Applying the stress overlay after the clears keeps the invariant and
leaves at most the stress overlay active. -/
theorem applyStressOverlay_spec (s : VizState) (h : VizInv s)
    (hhm : s.heatMat ≠ some s.meshMat) (hcm : s.channelMat = none)
    (hca : s.channelActive = false) (hfa : s.flowApplied = false) :
    VizInv (applyStressOverlay s) ∧ atMostOneOverlay (applyStressOverlay s) := by
  obtain ⟨n, mm, ho, hm, so, sm, fa, ca, cm, cs, iv⟩ := s
  simp only at hhm hcm hca hfa
  subst hcm hca hfa
  unfold VizInv belowOpt diffOpt at h
  unfold applyStressOverlay
  cases so <;> cases sm <;> cases ho <;> cases hm <;> cases cs <;>
    unfold VizInv belowOpt diffOpt atMostOneOverlay heatActive stressActive
      flowActive coolingActive <;>
    simp_all <;> omega

/-- A reference below a bound stays below any larger bound. -/
theorem belowOpt_mono (o : Option ℕ) (n m : ℕ) (h : belowOpt o n)
    (hnm : n ≤ m) : belowOpt o m := by
  cases o with
  | none => trivial
  | some x => unfold belowOpt at h ⊢; omega

/-- A reference below `n` is never the material `n` itself. -/
theorem belowOpt_ne_some (o : Option ℕ) (n : ℕ) (h : belowOpt o n) :
    o ≠ some n := by
  cases o with
  | none => simp
  | some x =>
    unfold belowOpt at h
    intro hcon
    injection hcon with hx
    omega

/-- A reference below `n` differs from the fresh material `n`, on both
sides. -/
theorem diffOpt_fresh (o : Option ℕ) (n : ℕ) (h : belowOpt o n) :
    diffOpt o (some n) ∧ diffOpt (some n) o := by
  cases o with
  | none => exact ⟨trivial, trivial⟩
  | some x =>
    unfold belowOpt at h
    unfold diffOpt
    exact ⟨fun hcon => by omega, fun hcon => by omega⟩

/-- `belowOpt` on a present reference is just the bound on its value. -/
theorem belowOpt_some (x n : ℕ) (h : x < n) : belowOpt (some x) n := h

/-- `diffOpt` on two present references is just disequality of the values. -/
theorem diffOpt_some (x y : ℕ) (h : x ≠ y) : diffOpt (some x) (some y) := h

/-- A reference that is not `some m` differs from `some m`, on both sides. -/
theorem diffOpt_of_ne (o : Option ℕ) (m : ℕ) (h : o ≠ some m) :
    diffOpt (some m) o ∧ diffOpt o (some m) := by
  cases o with
  | none => exact ⟨trivial, trivial⟩
  | some x =>
    unfold diffOpt
    have hx : x ≠ m := fun hcon => h (by rw [hcon])
    exact ⟨fun hcon => hx hcon.symm, hx⟩

/-- Applying the cooling channel shader after the three clears (heat and
stress not on the mesh, flow flag down) keeps the invariant and leaves at
most the cooling overlay active. -/
theorem applyChannelShader_spec (s : VizState) (h : VizInv s)
    (hhm : s.heatMat ≠ some s.meshMat) (hsm : s.stressMat ≠ some s.meshMat)
    (hfa : s.flowApplied = false) :
    VizInv (applyChannelShader s) ∧ atMostOneOverlay (applyChannelShader s) := by
  obtain ⟨n, mm, ho, hm, so, sm, fa, ca, cm, cs, iv⟩ := s
  simp only at hhm hsm hfa
  subst hfa
  obtain ⟨⟨b1, b2, b3, b4, b5, b6, b7⟩, ⟨d1, d2, d3⟩,
    ⟨o1, o2, o3, o4, o5, o6, o7, o8, o9⟩, ⟨a1, a2, a3⟩, he⟩ := h
  unfold applyChannelShader
  by_cases hcur : cm = some mm
  · rw [if_pos hcur]
    refine ⟨⟨⟨b1, b2, b3, b4, b5, b6, b7⟩, ⟨d1, d2, d3⟩,
      ⟨o1, o2, o3, o4, o5, o6, o7, o8, o9⟩, ⟨a1, a2, a3⟩,
      fun hcon => Bool.noConfusion hcon⟩,
      fun hcon => absurd hcon hhm, fun hcon => absurd hcon hsm,
      fun hcon => Bool.noConfusion hcon,
      fun _ => ⟨hhm, hsm, fun hcon => Bool.noConfusion hcon⟩⟩
  · rw [if_neg hcur]
    have hb1 : (mm : ℕ) < n := b1
    refine ⟨⟨⟨show n < n + 1 by omega, belowOpt_mono ho n (n + 1) b2 (by omega),
      belowOpt_mono hm n (n + 1) b3 (by omega),
      belowOpt_mono so n (n + 1) b4 (by omega),
      belowOpt_mono sm n (n + 1) b5 (by omega),
      belowOpt_some n (n + 1) (by omega),
      belowOpt_some mm (n + 1) (by omega)⟩,
      ⟨d1, (diffOpt_fresh hm n b3).1, (diffOpt_fresh sm n b5).1⟩,
      ⟨o1, o2, (diffOpt_fresh ho n b2).1, o4, o5, (diffOpt_fresh so n b4).1,
        (diffOpt_of_ne hm mm hhm).1, (diffOpt_of_ne sm mm hsm).1,
        diffOpt_some mm n (by omega)⟩,
      ⟨fun hcon => absurd hcon (belowOpt_ne_some hm n b3),
        fun hcon => absurd hcon (belowOpt_ne_some sm n b5),
        fun _ => rfl⟩,
      fun hcon => Bool.noConfusion hcon⟩,
      fun hcon => absurd hcon (belowOpt_ne_some hm n b3),
      fun hcon => absurd hcon (belowOpt_ne_some sm n b5),
      fun hcon => Bool.noConfusion hcon,
      fun _ => ⟨fun hcon => absurd hcon (belowOpt_ne_some hm n b3),
        fun hcon => absurd hcon (belowOpt_ne_some sm n b5),
        fun hcon => Bool.noConfusion hcon⟩⟩

/-- The invariant ignores the internal-flow visibility flag. -/
theorem vizInv_iv (s : VizState) (b : Bool) :
    VizInv { s with internalFlowVisible := b } ↔ VizInv s := Iff.rfl

/-- The invariant ignores the flow-colors flag. -/
theorem vizInv_applyFlowViz (s : VizState) :
    VizInv (applyFlowViz s) ↔ VizInv s := Iff.rfl

/-- `atMostOneOverlay` from all four overlays being inactive. -/
theorem atMostOne_of_inactive (s : VizState) (hh : ¬heatActive s)
    (hs : ¬stressActive s) (hf : ¬flowActive s) (hc : ¬coolingActive s) :
    atMostOneOverlay s :=
  ⟨fun hcon => absurd hcon hh, fun hcon => absurd hcon hs,
    fun hcon => absurd hcon hf, fun hcon => absurd hcon hc⟩

/-- `atMostOneOverlay` when only the flow overlay may be active. -/
theorem atMostOne_of_flow (s : VizState) (hh : ¬heatActive s)
    (hs : ¬stressActive s) (hc : ¬coolingActive s) : atMostOneOverlay s :=
  ⟨fun hcon => absurd hcon hh, fun hcon => absurd hcon hs,
    fun _ => ⟨hh, hs, hc⟩, fun hcon => absurd hcon hc⟩

/-- `atMostOneOverlay` when only the cooling overlay may be active. -/
theorem atMostOne_of_cooling (s : VizState) (hh : ¬heatActive s)
    (hs : ¬stressActive s) (hf : ¬flowActive s) : atMostOneOverlay s :=
  ⟨fun hcon => absurd hcon hh, fun hcon => absurd hcon hs,
    fun hcon => absurd hcon hf, fun _ => ⟨hh, hs, hf⟩⟩

/-- Every `applyVisualization` transition preserves the health invariant and
re-establishes the at-most-one-active-overlay property. -/
theorem applyVisualization_preserves (mode : VizMode) (d : TickData)
    (s : VizState) (h : VizInv s) (ha : atMostOneOverlay s) :
    VizInv (applyVisualization mode d s) ∧
      atMostOneOverlay (applyVisualization mode d s) := by
  unfold applyVisualization applyVisualizationT
  cases hsd : d.hasSimData with
  | false =>
    simp only [hsd]
    exact ⟨h, ha⟩
  | true =>
    simp only [hsd, Bool.true_eq_false, if_false]
    obtain ⟨inv3, hfa3, hhm3, hsm3, hhmeq, hsmeq, hcmeq, hcseq, hcaeq, hneq⟩ :=
      clearHSF_spec s h
    set s3 := clearFlowViz (clearStressOverlay (clearHeatMap s)) with hs3
    obtain ⟨mNew, heq4, hsrc4⟩ := clearCoolingViz_eq s3 inv3
    obtain ⟨inv4, hh4, hs4⟩ :=
      vizInv_clearCooling_form s3 mNew inv3 hsrc4 hhm3 hsm3
    cases mode with
    | normal =>
      simp only [heq4]
      refine ⟨inv4, atMostOne_of_inactive _ ?_ ?_ ?_ ?_⟩
      · exact hh4
      · exact hs4
      · unfold flowActive
        intro hcon
        rw [hfa3] at hcon
        exact Bool.noConfusion hcon
      · exact fun hcon => Bool.noConfusion hcon
    | heatmap =>
      simp only [heq4]
      cases hwt : d.hasWallTemp with
      | true =>
        simp only [if_pos rfl]
        exact applyHeatMap_spec _ inv4 hs4 rfl rfl hfa3
      | false =>
        simp only [Bool.false_eq_true, if_false]
        refine ⟨inv4, atMostOne_of_inactive _ hh4 hs4 ?_ ?_⟩
        · unfold flowActive
          intro hcon
          rw [hfa3] at hcon
          exact Bool.noConfusion hcon
        · exact fun hcon => Bool.noConfusion hcon
    | stress =>
      simp only [heq4]
      cases hst : d.hasStress with
      | true =>
        simp only [if_pos rfl]
        exact applyStressOverlay_spec _ inv4 hh4 rfl rfl hfa3
      | false =>
        simp only [Bool.false_eq_true, if_false]
        refine ⟨inv4, atMostOne_of_inactive _ hh4 hs4 ?_ ?_⟩
        · unfold flowActive
          intro hcon
          rw [hfa3] at hcon
          exact Bool.noConfusion hcon
        · exact fun hcon => Bool.noConfusion hcon
    | flow =>
      simp only [heq4]
      cases hma : d.hasMach with
      | true =>
        simp only [if_pos rfl]
        refine ⟨inv4, atMostOne_of_flow _ hh4 hs4 ?_⟩
        exact fun hcon => Bool.noConfusion hcon
      | false =>
        simp only [Bool.false_eq_true, if_false]
        refine ⟨inv4, atMostOne_of_inactive _ hh4 hs4 ?_ ?_⟩
        · unfold flowActive
          intro hcon
          rw [hfa3] at hcon
          exact Bool.noConfusion hcon
        · exact fun hcon => Bool.noConfusion hcon
    | cooling =>
      simp only [ne_eq, not_true_eq_false, if_false, not_false_eq_true, if_true]
      cases hmd : d.hasMeshData with
      | true =>
        simp only [if_pos rfl]
        unfold showCoolingViz
        cases hce : d.coolingEnabled with
        | true =>
          simp only [if_pos rfl]
          exact applyChannelShader_spec _ inv3 hhm3 hsm3 hfa3
        | false =>
          simp only [Bool.false_eq_true, if_false]
          have inv5 : VizInv { s3 with internalFlowVisible := false } := inv3
          obtain ⟨mN, heqc, hsrcc⟩ :=
            clearCoolingViz_eq { s3 with internalFlowVisible := false } inv5
          obtain ⟨invc, hhc, hsc⟩ :=
            vizInv_clearCooling_form { s3 with internalFlowVisible := false }
              mN inv5 hsrcc hhm3 hsm3
          show VizInv (clearCoolingViz { s3 with internalFlowVisible := false }) ∧
            atMostOneOverlay (clearCoolingViz { s3 with internalFlowVisible := false })
          rw [heqc]
          refine ⟨invc, atMostOne_of_inactive _ hhc hsc ?_ ?_⟩
          · unfold flowActive
            intro hcon
            exact Bool.noConfusion (hfa3 ▸ hcon)
          · exact fun hcon => Bool.noConfusion hcon
      | false =>
        simp only [Bool.false_eq_true, if_false]
        refine ⟨inv3, atMostOne_of_cooling _ hhm3 hsm3 ?_⟩
        unfold flowActive
        intro hcon
        rw [hfa3] at hcon
        exact Bool.noConfusion hcon

/-- On every transition with simulation data, the action trace of
`applyVisualization` splits into a clear phase followed by at most one more
action: the clear phase always contains the heat, stress and flow clears, and
also the cooling clear whenever the selected mode is not `cooling`; the one
action after it is an apply (or, for a cooling selection with cooling
disabled, the cooling teardown). -/
theorem applyVisualizationT_trace_split (mode : VizMode) (d : TickData)
    (s : VizState) (hsd : d.hasSimData = true) :
    ∃ l1 l2, (applyVisualizationT mode d s).2 = l1 ++ l2 ∧
      VizAction.clearHeat ∈ l1 ∧ VizAction.clearStress ∈ l1 ∧
      VizAction.clearFlow ∈ l1 ∧
      (mode ≠ VizMode.cooling → VizAction.clearCooling ∈ l1) ∧
      (∀ a ∈ l1, a.isClearAct = true) ∧
      (∀ a ∈ l2, a.isApplyAct = true ∨ a = VizAction.clearCooling) ∧
      l2.length ≤ 1 := by
  unfold applyVisualizationT
  cases mode with
  | normal =>
    refine ⟨[VizAction.clearHeat, VizAction.clearStress, VizAction.clearFlow,
      VizAction.clearCooling], [], ?_, by decide, by decide, by decide,
      fun _ => by decide, by decide, by decide, by decide⟩
    simp [hsd]
  | heatmap =>
    cases hwt : d.hasWallTemp with
    | true =>
      refine ⟨[VizAction.clearHeat, VizAction.clearStress, VizAction.clearFlow,
        VizAction.clearCooling], [VizAction.applyHeat], ?_, by decide,
        by decide, by decide, fun _ => by decide, by decide, by decide,
        by decide⟩
      simp [hsd, hwt]
    | false =>
      refine ⟨[VizAction.clearHeat, VizAction.clearStress, VizAction.clearFlow,
        VizAction.clearCooling], [], ?_, by decide, by decide, by decide,
        fun _ => by decide, by decide, by decide, by decide⟩
      simp [hsd, hwt]
  | stress =>
    cases hst : d.hasStress with
    | true =>
      refine ⟨[VizAction.clearHeat, VizAction.clearStress, VizAction.clearFlow,
        VizAction.clearCooling], [VizAction.applyStress], ?_, by decide,
        by decide, by decide, fun _ => by decide, by decide, by decide,
        by decide⟩
      simp [hsd, hst]
    | false =>
      refine ⟨[VizAction.clearHeat, VizAction.clearStress, VizAction.clearFlow,
        VizAction.clearCooling], [], ?_, by decide, by decide, by decide,
        fun _ => by decide, by decide, by decide, by decide⟩
      simp [hsd, hst]
  | flow =>
    cases hma : d.hasMach with
    | true =>
      refine ⟨[VizAction.clearHeat, VizAction.clearStress, VizAction.clearFlow,
        VizAction.clearCooling], [VizAction.applyFlow], ?_, by decide,
        by decide, by decide, fun _ => by decide, by decide, by decide,
        by decide⟩
      simp [hsd, hma]
    | false =>
      refine ⟨[VizAction.clearHeat, VizAction.clearStress, VizAction.clearFlow,
        VizAction.clearCooling], [], ?_, by decide, by decide, by decide,
        fun _ => by decide, by decide, by decide, by decide⟩
      simp [hsd, hma]
  | cooling =>
    cases hmd : d.hasMeshData with
    | true =>
      cases hce : d.coolingEnabled with
      | true =>
        refine ⟨[VizAction.clearHeat, VizAction.clearStress,
          VizAction.clearFlow], [VizAction.applyCooling], ?_, by decide,
          by decide, by decide, fun hcon => absurd rfl hcon, by decide,
          by decide, by decide⟩
        simp [hsd, hmd, hce]
      | false =>
        refine ⟨[VizAction.clearHeat, VizAction.clearStress,
          VizAction.clearFlow], [VizAction.clearCooling], ?_, by decide,
          by decide, by decide, fun hcon => absurd rfl hcon, by decide,
          by decide, by decide⟩
        simp [hsd, hmd, hce]
    | false =>
      refine ⟨[VizAction.clearHeat, VizAction.clearStress,
        VizAction.clearFlow], [], ?_, by decide, by decide, by decide,
        fun hcon => absurd rfl hcon, by decide, by decide, by decide⟩
      simp [hsd, hmd]

/-- `clearHeatMap` is idempotent. -/
theorem clearHeatMap_idem (s : VizState) :
    clearHeatMap (clearHeatMap s) = clearHeatMap s := by
  obtain ⟨n, mm, ho, hm, so, sm, fa, ca, cm, cs, iv⟩ := s
  cases ho <;> rfl

/-- `clearStressOverlay` is idempotent. -/
theorem clearStressOverlay_idem (s : VizState) :
    clearStressOverlay (clearStressOverlay s) = clearStressOverlay s := by
  obtain ⟨n, mm, ho, hm, so, sm, fa, ca, cm, cs, iv⟩ := s
  cases so <;> rfl

/-- `clearFlowViz` is idempotent. -/
theorem clearFlowViz_idem (s : VizState) :
    clearFlowViz (clearFlowViz s) = clearFlowViz s := by
  obtain ⟨n, mm, ho, hm, so, sm, fa, ca, cm, cs, iv⟩ := s
  cases fa <;> rfl

/-- `clearCoolingViz` is idempotent. -/
theorem clearCoolingViz_idem (s : VizState) :
    clearCoolingViz (clearCoolingViz s) = clearCoolingViz s := by
  obtain ⟨n, mm, ho, hm, so, sm, fa, ca, cm, cs, iv⟩ := s
  cases ca with
  | false => rfl
  | true =>
    cases cs with
    | none => rfl
    | some m =>
      by_cases hcm : cm = some mm
      · subst hcm
        simp [clearCoolingViz]
      · simp [clearCoolingViz, hcm]

/-! ## C2 — overlay transition discipline -/

/-- Counterexample to C2 as stated: a transition into the Cooling mode does
NOT execute the clear action of all four overlays before applying — main.js
guards the cooling clear with `if (vizMode !== 'cooling') clearCoolingViz()`,
so the transition into cooling (full data, cooling enabled, from the fresh
page state) runs the cooling apply without ever running the cooling clear. -/
theorem applyVisualization_cooling_skips_cooling_clear :
    VizAction.clearCooling ∉
        (applyVisualizationT VizMode.cooling
          ⟨true, true, true, true, true, true, true⟩ initVizState).2 ∧
      VizAction.applyCooling ∈
        (applyVisualizationT VizMode.cooling
          ⟨true, true, true, true, true, true, true⟩ initVizState).2 := by
  decide

/-- C2, amended: on every transition with simulation data the controller
first runs a clear phase — always the heat, stress and flow clears, and the
cooling clear too whenever the newly selected mode is not Cooling (a
transition into Cooling skips `clearCoolingViz` to keep the live channel
shader, and tears it down inside its own apply when cooling is disabled) —
and only then runs at most one apply action.  Each of the four clears is
idempotent (so safe to call when its overlay was never active), and every
transition from a healthy state preserves the health invariant and the
at-most-one-active-overlay property, so at most one overlay is active in any
reachable state. -/
theorem applyVisualization_clear_discipline :
    (∀ (mode : VizMode) (d : TickData) (s : VizState),
      d.hasSimData = true →
      ∃ l1 l2, (applyVisualizationT mode d s).2 = l1 ++ l2 ∧
        VizAction.clearHeat ∈ l1 ∧ VizAction.clearStress ∈ l1 ∧
        VizAction.clearFlow ∈ l1 ∧
        (mode ≠ VizMode.cooling → VizAction.clearCooling ∈ l1) ∧
        (∀ a ∈ l1, a.isClearAct = true) ∧
        (∀ a ∈ l2, a.isApplyAct = true ∨ a = VizAction.clearCooling) ∧
        l2.length ≤ 1) ∧
    (∀ s, clearHeatMap (clearHeatMap s) = clearHeatMap s) ∧
    (∀ s, clearStressOverlay (clearStressOverlay s) = clearStressOverlay s) ∧
    (∀ s, clearFlowViz (clearFlowViz s) = clearFlowViz s) ∧
    (∀ s, clearCoolingViz (clearCoolingViz s) = clearCoolingViz s) ∧
    (∀ (mode : VizMode) (d : TickData) (s : VizState),
      VizInv s → atMostOneOverlay s →
      VizInv (applyVisualization mode d s) ∧
        atMostOneOverlay (applyVisualization mode d s)) :=
  ⟨applyVisualizationT_trace_split, clearHeatMap_idem, clearStressOverlay_idem,
    clearFlowViz_idem, clearCoolingViz_idem, applyVisualization_preserves⟩

/-- Witness for the amended C2: the fresh page state is healthy, and a
transition into Cooling with full data keeps the invariant and the
at-most-one-active property; its trace splits as stated. -/
theorem applyVisualization_clear_discipline_witness :
    (VizInv initVizState ∧ atMostOneOverlay initVizState ∧
        (⟨true, true, true, true, true, true, true⟩ : TickData).hasSimData =
          true) ∧
      (VizInv (applyVisualization VizMode.cooling
          ⟨true, true, true, true, true, true, true⟩ initVizState) ∧
        atMostOneOverlay (applyVisualization VizMode.cooling
          ⟨true, true, true, true, true, true, true⟩ initVizState)) ∧
      ∃ l1 l2, (applyVisualizationT VizMode.cooling
          ⟨true, true, true, true, true, true, true⟩ initVizState).2 =
            l1 ++ l2 ∧
        VizAction.clearHeat ∈ l1 ∧ VizAction.clearStress ∈ l1 ∧
        VizAction.clearFlow ∈ l1 ∧
        (VizMode.cooling ≠ VizMode.cooling → VizAction.clearCooling ∈ l1) ∧
        (∀ a ∈ l1, a.isClearAct = true) ∧
        (∀ a ∈ l2, a.isApplyAct = true ∨ a = VizAction.clearCooling) ∧
        l2.length ≤ 1 :=
  ⟨⟨by decide, by decide, rfl⟩,
    applyVisualization_clear_discipline.2.2.2.2.2 VizMode.cooling
      ⟨true, true, true, true, true, true, true⟩ initVizState (by decide)
      (by decide),
    applyVisualization_clear_discipline.1 VizMode.cooling
      ⟨true, true, true, true, true, true, true⟩ initVizState rfl⟩
